import Mathlib

set_option maxHeartbeats 1000000
set_option maxRecDepth 100000

/-!
Verification development for the mmtuk-cms repository.

The definitions below are a shallow embedding of the Python sources:
  content_schema/schemas.py, chat/services/content_service.py,
  chat/services/content_reader_service.py, chat/services/git_service.py,
  chat/views.py and accounts/models.py.

Python values that can appear in frontmatter dictionaries are modelled by
the inductive type Val; Python dicts by association lists with
first-match lookup; Django model rows by plain structures; the process
state touched by the view handlers (repository working tree, draft
records, audit log, local commits) by the structure CmsState.  External
collaborators (network, git transport, the database raising) are
modelled by explicit outcome flags in environment records.
-/

namespace MMT

/-- Model of a Python value as stored in a frontmatter dict.  Dates and
datetimes carry their components; null models Python None. -/
inductive Val where
  | str (s : String)
  | b (x : Bool)
  | num (n : Int)
  | vlist (xs : List String)
  | date (y m d : Nat)
  | datetime (y mo d h mi s : Nat)
  | null
deriving DecidableEq

/-- Association-list lookup, first match wins (Python dict get). -/
def assocGet {α : Type} : List (String × α) → String → Option α
  | [], _ => none
  | (k, v) :: r, key => if k = key then some v else assocGet r key

/-- Association-list update: replace the first binding of the key, or
append a new binding (Python dict item assignment). -/
def assocSet {α : Type} : List (String × α) → String → α → List (String × α)
  | [], key, v => [(key, v)]
  | (k, w) :: r, key, v =>
      if k = key then (k, v) :: r else (k, w) :: assocSet r key v

/-- A frontmatter mapping: field name to value. -/
def FM : Type := List (String × Val)

instance : DecidableEq FM := by unfold FM; infer_instance

def fmGet (fm : FM) (k : String) : Option Val := assocGet fm k

def fmGetD (fm : FM) (k : String) (d : Val) : Val := (fmGet fm k).getD d

/-- Python dict(e) followed by .update(p): p overrides e key by key. -/
def fmUpdate (e p : FM) : FM := p.foldl (fun acc kv => assocSet acc kv.1 kv.2) e

/-- Python truthiness of a frontmatter value. -/
def valTruthy : Val → Bool
  | .str s => !(s == "")
  | .b x => x
  | .num n => !(n == 0)
  | .vlist xs => !xs.isEmpty
  | .date _ _ _ => true
  | .datetime _ _ _ _ _ _ => true
  | .null => false

/-- Python expression a or b where a is an optional value: the value of
a when present and truthy, otherwise b. -/
def pyOrV (a : Option Val) (bv : Val) : Val :=
  match a with
  | some v => if valTruthy v then v else bv
  | none => bv

def pad2 (n : Nat) : String := if n < 10 then "0" ++ toString n else toString n

def pad4 (n : Nat) : String :=
  if n < 10 then "000" ++ toString n
  else if n < 100 then "00" ++ toString n
  else if n < 1000 then "0" ++ toString n
  else toString n

/-- Python str() of a value (used by f-strings and the _yaml_value
fallthrough branch). -/
def pyStr : Val → String
  | .str s => s
  | .b true => "True"
  | .b false => "False"
  | .num n => toString n
  | .vlist xs =>
      "[" ++ String.intercalate ", " (xs.map (fun s => "\x27" ++ s ++ "\x27")) ++ "]"
  | .date y m d => pad4 y ++ "-" ++ pad2 m ++ "-" ++ pad2 d
  | .datetime y mo d h mi s =>
      pad4 y ++ "-" ++ pad2 mo ++ "-" ++ pad2 d ++ " " ++
        pad2 h ++ ":" ++ pad2 mi ++ ":" ++ pad2 s
  | .null => "None"

/-- Membership of a Val in a tuple of Python string literals. -/
def memStr (v : Val) (l : List String) : Bool := l.any (fun s => v == .str s)

/-! ## content_schema/schemas.py -/

inductive FieldType where
  | string | enum | date | datetime | number | boolean | string_array
deriving DecidableEq

structure FieldDef where
  ftype : FieldType
  options : List String := []
  default : Option Val := none
deriving DecidableEq

/-- One entry of the CONTENT_TYPES catalog.  The filename_pattern is the
same for every type and is modelled by filenameFor below; display-only
keys (appears_on, route, notes, descriptions) are omitted. -/
structure ContentSchema where
  name : String
  directory : String
  required_fields : List String
  fields : List (String × FieldDef)
deriving DecidableEq

def articleSchema : ContentSchema :=
  { name := "Article"
    directory := "src/content/articles/"
    required_fields := ["title", "slug", "category", "author", "pubDate"]
    fields :=
      [ ("title", { ftype := .string })
      , ("slug", { ftype := .string })
      , ("category",
          { ftype := .enum
            options := ["Article", "Commentary", "Research", "Core Ideas",
                        "Core Insights", "But what about...?"] })
      , ("layout",
          { ftype := .enum
            options := ["default", "simplified", "rebuttal"]
            default := some (.str "default") })
      , ("sector", { ftype := .string, default := some (.str "Economics") })
      , ("author", { ftype := .string, default := some (.str "MMTUK") })
      , ("authorTitle", { ftype := .string })
      , ("pubDate", { ftype := .date })
      , ("readTime", { ftype := .number, default := some (.num 5) })
      , ("summary", { ftype := .string })
      , ("thumbnail", { ftype := .string })
      , ("mainImage", { ftype := .string })
      , ("featured", { ftype := .boolean, default := some (.b false) })
      , ("color", { ftype := .string }) ] }

def briefingSchema : ContentSchema :=
  { name := "Briefing"
    directory := "src/content/briefings/"
    required_fields := ["title", "slug", "author", "pubDate"]
    fields :=
      [ ("title", { ftype := .string })
      , ("slug", { ftype := .string })
      , ("author", { ftype := .string })
      , ("authorTitle", { ftype := .string })
      , ("pubDate", { ftype := .date })
      , ("readTime", { ftype := .number, default := some (.num 5) })
      , ("summary", { ftype := .string })
      , ("thumbnail", { ftype := .string })
      , ("mainImage", { ftype := .string })
      , ("featured", { ftype := .boolean, default := some (.b false) })
      , ("draft", { ftype := .boolean, default := some (.b false) })
      , ("sourceUrl", { ftype := .string })
      , ("sourceTitle", { ftype := .string })
      , ("sourceAuthor", { ftype := .string })
      , ("sourcePublication", { ftype := .string })
      , ("sourceDate", { ftype := .date }) ] }

def newsSchema : ContentSchema :=
  { name := "News"
    directory := "src/content/news/"
    required_fields := ["title", "slug", "date", "category"]
    fields :=
      [ ("title", { ftype := .string })
      , ("slug", { ftype := .string })
      , ("date", { ftype := .date })
      , ("category",
          { ftype := .enum
            options := ["Announcement", "Event", "Press Release", "Update"] })
      , ("summary", { ftype := .string })
      , ("thumbnail", { ftype := .string })
      , ("mainImage", { ftype := .string }) ] }

def localEventSchema : ContentSchema :=
  { name := "Local Event"
    directory := "src/content/localEvents/"
    required_fields := ["title", "slug", "localGroup", "date", "tag", "location",
                        "description"]
    fields :=
      [ ("title", { ftype := .string })
      , ("slug", { ftype := .string })
      , ("localGroup",
          { ftype := .enum
            options := ["brighton", "london", "oxford", "pennines", "scotland",
                        "solent"] })
      , ("date", { ftype := .datetime })
      , ("tag", { ftype := .string })
      , ("location", { ftype := .string })
      , ("description", { ftype := .string })
      , ("link", { ftype := .string })
      , ("image", { ftype := .string }) ] }

def localNewsSchema : ContentSchema :=
  { name := "Local News"
    directory := "src/content/localNews/"
    required_fields := ["heading", "slug", "text", "localGroup", "date"]
    fields :=
      [ ("heading", { ftype := .string })
      , ("slug", { ftype := .string })
      , ("text", { ftype := .string })
      , ("localGroup",
          { ftype := .enum
            options := ["brighton", "london", "oxford", "pennines", "scotland",
                        "solent"] })
      , ("date", { ftype := .date })
      , ("link", { ftype := .string })
      , ("image", { ftype := .string }) ] }

def bioSchema : ContentSchema :=
  { name := "Bio"
    directory := "src/content/bios/"
    required_fields := ["name", "slug", "role"]
    fields :=
      [ ("name", { ftype := .string })
      , ("slug", { ftype := .string })
      , ("role", { ftype := .string })
      , ("photo", { ftype := .string })
      , ("linkedin", { ftype := .string })
      , ("twitter", { ftype := .string })
      , ("website", { ftype := .string })
      , ("advisoryBoard", { ftype := .boolean, default := some (.b false) }) ] }

def ecosystemSchema : ContentSchema :=
  { name := "Ecosystem Entry"
    directory := "src/content/ecosystem/"
    required_fields := ["name", "slug"]
    fields :=
      [ ("name", { ftype := .string })
      , ("slug", { ftype := .string })
      , ("country", { ftype := .string, default := some (.str "UK") })
      , ("types", { ftype := .string_array })
      , ("summary", { ftype := .string })
      , ("logo", { ftype := .string })
      , ("website", { ftype := .string })
      , ("twitter", { ftype := .string })
      , ("facebook", { ftype := .string })
      , ("youtube", { ftype := .string })
      , ("discord", { ftype := .string })
      , ("status",
          { ftype := .enum
            options := ["Active", "Inactive", "Archived"]
            default := some (.str "Active") }) ] }

/-- CONTENT_TYPES.get(content_type). -/
def contentTypeGet (ct : String) : Option ContentSchema :=
  if ct = "article" then some articleSchema
  else if ct = "briefing" then some briefingSchema
  else if ct = "news" then some newsSchema
  else if ct = "local_event" then some localEventSchema
  else if ct = "local_news" then some localNewsSchema
  else if ct = "bio" then some bioSchema
  else if ct = "ecosystem" then some ecosystemSchema
  else none

/-- The keys of CONTENT_TYPES in dict order. -/
def contentTypeKeys : List String :=
  ["article", "briefing", "news", "local_event", "local_news", "bio", "ecosystem"]

/-- The filename_pattern of every catalog entry applied to a slug. -/
def filenameFor (slug : Val) : String := pyStr slug ++ ".md"

/-- format_date from schemas.py. -/
def format_date : Val → String
  | .datetime y mo d h mi s =>
      pad4 y ++ "-" ++ pad2 mo ++ "-" ++ pad2 d ++ "T" ++
        pad2 h ++ ":" ++ pad2 mi ++ ":" ++ pad2 s ++ ".000Z"
  | .date y m d => pad4 y ++ "-" ++ pad2 m ++ "-" ++ pad2 d ++ "T00:00:00.000Z"
  | .str s => s
  | v => pyStr v

/-- auto_layout from schemas.py, on the Val carried by the category key. -/
def auto_layout (category : Val) : Val :=
  if category == .str "Core Ideas" || category == .str "Core Insights" then
    .str "simplified"
  else if category == .str "But what about...?" then .str "rebuttal"
  else .str "default"

/-- Python str(list-of-strings) as it appears in the enum error text. -/
def pyReprStrList (opts : List String) : String :=
  "[" ++ String.intercalate ", " (opts.map (fun o => "\x27" ++ o ++ "\x27")) ++ "]"

def enumErrMsg (fname : String) (v : Val) (opts : List String) : String :=
  fname ++ ": \"" ++ pyStr v ++ "\" is not a valid option. Must be one of: " ++
    pyReprStrList opts

/-- validate_frontmatter from schemas.py: missing-required errors in
required_fields order, then enum-domain errors in frontmatter order. -/
def validate_frontmatter (ct : String) (fm : FM) : Bool × List String :=
  match contentTypeGet ct with
  | none => (false, ["Unknown content type: " ++ ct])
  | some schema =>
      let reqErrs := schema.required_fields.filterMap (fun f =>
        match assocGet fm f with
        | none => some ("Missing required field: " ++ f)
        | some v =>
            if v == .null || v == .str "" then
              some ("Missing required field: " ++ f)
            else none)
      let enumErrs := fm.filterMap (fun kv =>
        match assocGet schema.fields kv.1 with
        | none => none
        | some fdef =>
            if fdef.ftype == .enum && !fdef.options.isEmpty then
              if memStr kv.2 fdef.options then none
              else some (enumErrMsg kv.1 kv.2 fdef.options)
            else none)
      let errs := reqErrs ++ enumErrs
      (errs.isEmpty, errs)

/-- apply_defaults from schemas.py: fill in schema defaults for absent
keys, then auto-set the article layout from the category when the
original frontmatter had no truthy layout. -/
def apply_defaults (ct : String) (fm : FM) : FM :=
  match contentTypeGet ct with
  | none => fm
  | some schema =>
      let withDefaults := schema.fields.foldl (fun acc fd =>
        match fd.2.default with
        | some d => if (assocGet acc fd.1).isNone then assocSet acc fd.1 d else acc
        | none => acc) fm
      if ct = "article" && (assocGet withDefaults "category").isSome then
        if (fmGet fm "layout").isNone || !(valTruthy (fmGetD fm "layout" .null)) then
          assocSet withDefaults "layout"
            (auto_layout (fmGetD withDefaults "category" .null))
        else withDefaults
      else withDefaults

/-! ## chat/services/content_service.py -/

/-- get_file_path: directory of the content type plus the slug-derived
filename.  The source raises ValueError for an unknown type; that branch
is unreachable in the handlers (validation rejects unknown types first)
and is modelled as none. -/
def get_file_path (ct : String) (slug : Val) : Option String :=
  (contentTypeGet ct).map (fun schema => schema.directory ++ filenameFor slug)

def get_image_path (ct : String) (slug : Val) : String :=
  if ct = "bio" then "public/images/bios/" ++ pyStr slug ++ ".png"
  else if ct = "briefing" then
    "public/images/briefings/" ++ pyStr slug ++ "-thumbnail.png"
  else "public/images/" ++ pyStr slug ++ ".png"

/-- The YAML-significant characters that force quoting in _yaml_value. -/
def specialChars : List Char :=
  [':', '#', '\x7b', '\x7d', '[', ']', ',', '&', '*', '?', '|', '-',
   '<', '>', '=', '!', '%', '@', '\x60']

def yamlLiterals : List String := ["true", "false", "yes", "no", "null", "on", "off"]

def lowerStr (s : String) : String := ⟨s.data.map Char.toLower⟩

def escapeQuotes (cs : List Char) : List Char :=
  cs.foldr (fun c acc => (if c == '"' then ['\\', '"'] else [c]) ++ acc) []

/-- _yaml_value from content_service.py, producing the emitted characters. -/
def yamlValueChars : Val → List Char
  | .b true => "true".data
  | .b false => "false".data
  | .num n => (toString n).data
  | .vlist xs =>
      '[' :: (String.intercalate ", " (xs.map (fun v => "\"" ++ v ++ "\""))).data
        ++ [']']
  | .str s =>
      if s.data.any (fun c => specialChars.contains c) then
        '"' :: escapeQuotes s.data ++ ['"']
      else if yamlLiterals.contains (lowerStr s) then '"' :: s.data ++ ['"']
      else s.data
  | v => (pyStr v).data

/-- The marker line of the frontmatter block. -/
def yamlDashes : List Char := ['-', '-', '-']

/-- Python newline-join of a list of lines. -/
def joinNl : List (List Char) → List Char
  | [] => []
  | [l] => l
  | l :: l2 :: ls => l ++ '\n' :: joinNl (l2 :: ls)

/-- The value a field is serialized with: date and datetime typed fields
pass through format_date first. -/
def emittedVal (fdef : FieldDef) (v : Val) : Val :=
  if fdef.ftype == .date || fdef.ftype == .datetime then .str (format_date v)
  else v

def emitPairsL (fields : List (String × FieldDef)) (fm : FM)
    : List (String × Val) :=
  fields.filterMap (fun fd =>
    match assocGet fm fd.1 with
    | some v => if v == .null then none else some (fd.1, emittedVal fd.2 v)
    | none => none)

/-- The (field, serialized value) pairs generate_markdown emits, in
schema field order, skipping absent and None-valued fields. -/
def emitPairs (schema : ContentSchema) (fm : FM) : List (String × Val) :=
  emitPairsL schema.fields fm

/-- One emitted frontmatter line. -/
def fieldLineChars (fname : String) (ev : Val) : List Char :=
  fname.data ++ ':' :: ' ' :: yamlValueChars ev

/-- The full list of lines generate_markdown joins with a newline. -/
def generateLines (schema : ContentSchema) (fm : FM) (body : String)
    : List (List Char) :=
  [yamlDashes] ++ (emitPairs schema fm).map (fun p => fieldLineChars p.1 p.2) ++
    [yamlDashes, []] ++
    (if body == "" then []
     else [body.data] ++ (if body.data.getLast? == some '\n' then [] else [[]]))

/-- generate_markdown from content_service.py: apply defaults, validate,
then emit the frontmatter block and body. -/
def generate_markdown (ct : String) (fm : FM) (body : String)
    : Option String × List String :=
  match contentTypeGet ct with
  | none => (none, ["Unknown content type: " ++ ct])
  | some schema =>
      let fm' := apply_defaults ct fm
      let v := validate_frontmatter ct fm'
      if !v.1 then (none, v.2)
      else (some ⟨joinNl (generateLines schema fm' body)⟩, [])

/-! ## chat/services/content_reader_service.py

The _parse_frontmatter function slices the raw text at the first
occurrence of the marker after index 3 and feeds the slice to
yaml.safe_load.  The PyYAML call is external library code; it is
modelled by a mini parser (parseYamlMappingChars) covering exactly the
document shapes these content files use: one key: value pair per line,
with double-quoted scalars, flow lists of quoted strings, booleans,
integers, dates and plain strings.  Inputs outside that subset (block
scalars, floats, anchors, ...) are conservatively treated as parse
failures. -/

/-- Python str.find of a pattern: index of the first occurrence. -/
def findSub (pat : List Char) : List Char → Option Nat
  | [] => if pat.isEmpty then some 0 else none
  | c :: cs =>
      if pat.isPrefixOf (c :: cs) then some 0
      else (findSub pat cs).map (· + 1)

def isWs (c : Char) : Bool := c.isWhitespace

/-- Python str.strip() on a character list. -/
def trimChars (cs : List Char) : List Char :=
  ((cs.dropWhile isWs).reverse.dropWhile isWs).reverse

/-- Split a character list on newline characters. -/
def splitOnNl : List Char → List (List Char)
  | [] => [[]]
  | c :: cs =>
      if c == '\n' then [] :: splitOnNl cs
      else
        match splitOnNl cs with
        | l :: ls => (c :: l) :: ls
        | [] => [[c]]

def isDigitCh (c : Char) : Bool := '0' ≤ c && c ≤ '9'

def digitsVal (cs : List Char) : Nat :=
  cs.foldl (fun acc c => acc * 10 + (c.toNat - '0'.toNat)) 0

/-- Resolve a plain (unquoted) YAML scalar the way yaml.safe_load does
on the subset of scalars these files contain. -/
def resolvePlain (cs : List Char) : Option Val :=
  if cs.isEmpty then some .null
  else
    let s : String := ⟨cs⟩
    if ["true", "True", "TRUE", "yes", "Yes", "YES", "on", "On", "ON"].contains s
    then some (.b true)
    else if ["false", "False", "FALSE", "no", "No", "NO", "off", "Off",
             "OFF"].contains s then some (.b false)
    else if ["null", "Null", "NULL", "~"].contains s then some .null
    else if cs.all isDigitCh then some (.num (digitsVal cs))
    else if cs.head? == some '-' && (cs.drop 1).all isDigitCh && cs.length > 1
    then some (.num (-(digitsVal (cs.drop 1) : Int)))
    else
      match cs with
      | [y1, y2, y3, y4, '-', m1, m2, '-', d1, d2] =>
          if [y1, y2, y3, y4, m1, m2, d1, d2].all isDigitCh then
            some (.date (digitsVal [y1, y2, y3, y4]) (digitsVal [m1, m2])
              (digitsVal [d1, d2]))
          else some (.str s)
      | _ =>
          -- floats and timestamps are outside the modelled subset
          if cs.any (fun c => c == '.') && cs.any isDigitCh then none
          else some (.str s)

/-- Read the interior of a double-quoted scalar, handling the escape
sequences PyYAML accepts that can occur here; unknown escapes and an
unterminated quote are parse failures.  The quote must close at the very
end of the scalar text. -/
def readDq : List Char → Option (List Char)
  | [] => none
  | '"' :: rest => if rest.isEmpty then some [] else none
  | '\\' :: e :: rest =>
      let esc : Option Char :=
        if e == '"' then some '"'
        else if e == '\\' then some '\\'
        else if e == 'n' then some '\n'
        else if e == 't' then some '\t'
        else if e == '0' then some (Char.ofNat 0)
        else if e == 'b' then some (Char.ofNat 8)
        else none
      match esc with
      | some c => (readDq rest).map (fun tail => c :: tail)
      | none => none
  | '\\' :: [] => none
  | c :: rest => (readDq rest).map (fun tail => c :: tail)

/-- Parse one item of a flow list: a simply quoted string with no
escapes, quotes or backslashes inside. -/
def readFlowItem (cs : List Char) : Option String :=
  match cs with
  | '"' :: rest =>
      match rest.reverse with
      | '"' :: revInner =>
          let inner := revInner.reverse
          if inner.any (fun c => c == '"' || c == '\\') then none
          else some ⟨inner⟩
      | _ => none
  | _ => none

/-- Split flow-list content on the comma-space separators the generator
emits (items are known to contain no commas in the modelled subset). -/
def splitCommaSp (cs : List Char) : List (List Char) :=
  match cs with
  | [] => [[]]
  | ',' :: ' ' :: rest =>
      [] :: splitCommaSp rest
  | c :: rest =>
      match splitCommaSp rest with
      | l :: ls => (c :: l) :: ls
      | [] => [[c]]

/-- Resolve one already-trimmed scalar. -/
def parseYamlScalarChars (cs : List Char) : Option Val :=
  match cs with
  | '"' :: rest => (readDq rest).map (fun inner => .str ⟨inner⟩)
  | '[' :: rest =>
      match rest.reverse with
      | ']' :: revInner =>
          let inner := revInner.reverse
          if inner.isEmpty then some (.vlist [])
          else
            let items := (splitCommaSp inner).mapM readFlowItem
            items.map .vlist
      | _ => none
  | _ => resolvePlain cs

/-- Parse one key: value line of the mapping. -/
def parseLineChars (cs : List Char) : Option (String × Val) :=
  let key := cs.takeWhile (fun c => !(c == ':'))
  match cs.dropWhile (fun c => !(c == ':')) with
  | ':' :: after =>
      (parseYamlScalarChars (trimChars after)).map
        (fun v => (⟨trimChars key⟩, v))
  | _ => none

def parseYamlLines (acc : FM) : List (List Char) → Option FM
  | [] => some acc
  | l :: ls =>
      match parseLineChars l with
      | some kv => parseYamlLines (assocSet acc kv.1 kv.2) ls
      | none => none

/-- Parse the trimmed frontmatter slice as a mapping; an empty document
or any unparseable line models the safe_load failure / non-dict cases. -/
def parseYamlMappingChars (cs : List Char) : Option FM :=
  let lines := (splitOnNl cs).filter (fun l => !(trimChars l).isEmpty)
  if lines.isEmpty then none
  else parseYamlLines [] lines

/-- The character-level body of _parse_frontmatter: slice at the marker
found from index 3, strip, and parse. -/
def parseFrontmatterCore (cs : List Char) : Option FM × List Char :=
  if yamlDashes.isPrefixOf cs then
    match findSub yamlDashes (cs.drop 3) with
    | none => (none, cs)
    | some i =>
        match parseYamlMappingChars (trimChars ((cs.drop 3).take i)) with
        | some fmv => (some fmv, trimChars ((cs.drop 3).drop (i + 3)))
        | none => (none, cs)
  else (none, cs)

/-- _parse_frontmatter from content_reader_service.py. -/
def parse_frontmatter (raw : String) : Option FM × String :=
  let r := parseFrontmatterCore raw.data
  (r.1, ⟨r.2⟩)

/-! ## accounts/models.py: the capability policy -/

inductive Role where
  | admin | editor | group_lead | contributor
deriving DecidableEq

/-- UserProfile: role plus the optional local group (empty string models
the blank field, as in the Django model). -/
structure UserProfile where
  role : Role
  local_group : String := ""
deriving DecidableEq

def editorTypes : List String :=
  ["article", "briefing", "news", "local_event", "local_news", "ecosystem"]

def contributorTypes : List String :=
  ["article", "briefing", "news", "local_event", "local_news"]

/-- UserProfile.can_publish_directly.  content_type and local_group are
the Python arguments; .null models Python None. -/
def can_publish_directly (p : UserProfile) (content_type : Val)
    (local_group : Val := .null) : Bool :=
  match p.role with
  | .admin => true
  | .editor => memStr content_type editorTypes
  | .group_lead =>
      if memStr content_type ["local_event", "local_news"] then
        local_group == .str p.local_group
      else false
  | .contributor => false

/-- UserProfile.can_create.  The local_group argument is accepted and
ignored, as in the source. -/
def can_create (p : UserProfile) (content_type : Val)
    (_local_group : Val := .null) : Bool :=
  match p.role with
  | .admin => true
  | .editor => memStr content_type editorTypes
  | .group_lead => memStr content_type ["local_event", "local_news"]
  | .contributor => memStr content_type contributorTypes

/-- UserProfile.can_approve.  For a group lead the guard requires a
truthy local_group argument equal to their own group; the membership
test then also admits content_type None. -/
def can_approve (p : UserProfile) (content_type : Val := .null)
    (local_group : Val := .null) : Bool :=
  match p.role with
  | .admin => true
  | .editor => true
  | .group_lead =>
      if valTruthy local_group && local_group == .str p.local_group then
        memStr content_type ["local_event", "local_news"] ||
          content_type == .null
      else false
  | .contributor => false

/-- UserProfile.can_edit. -/
def can_edit (p : UserProfile) (content_type : Val := .null)
    (local_group : Val := .null) : Bool :=
  match p.role with
  | .admin => true
  | .editor => true
  | .group_lead =>
      if memStr content_type ["local_event", "local_news"] then
        if valTruthy local_group then local_group == .str p.local_group
        else true
      else false
  | .contributor => false

/-- UserProfile.can_delete. -/
def can_delete (p : UserProfile) (_content_type : Val := .null)
    (_local_group : Val := .null) : Bool :=
  p.role == .admin || p.role == .editor

/-! ## Process state touched by the view handlers

The repository working tree, the output directory (DEBUG mode), the
ContentDraft table, the ContentAuditLog table and the accumulated local
commits.  File bodies are text (markdown) or raw bytes (images). -/

def Bytes : Type := List Nat

instance : DecidableEq Bytes := by unfold Bytes; infer_instance

inductive FileData where
  | txt (s : String)
  | bin (b : Bytes)
deriving DecidableEq

/-- A ContentDraft row (fields relevant to the handlers; database
defaults mirror the Django model). -/
structure DraftRec where
  content_type : String
  title : Val
  slug : Val
  frontmatter_json : FM
  body_markdown : String
  image_data : Option Bytes := none
  image_path : String := ""
  status : String
  git_commit_sha : String := ""
  created_by : String
deriving DecidableEq

/-- A ContentAuditLog row. -/
structure AuditRec where
  content_type : String
  slug : Val
  action : String
  user : String
  git_commit_sha : String := ""
  changes_summary : String := ""
deriving DecidableEq

/-- One local commit created by commit_locally. -/
structure CommitRec where
  files : List String
  message : String
  author_name : String
  sha : String
deriving DecidableEq

structure CmsState where
  repoFiles : List (String × FileData) := []
  outputFiles : List (String × FileData) := []
  drafts : List DraftRec := []
  audits : List AuditRec := []
  commits : List CommitRec := []
deriving DecidableEq

def writeRepoFile (st : CmsState) (path : String) (d : FileData) : CmsState :=
  { st with repoFiles := assocSet st.repoFiles path d }

def writeOutputFile (st : CmsState) (path : String) (d : FileData) : CmsState :=
  { st with outputFiles := assocSet st.outputFiles path d }

/-! ## content_reader_service.py over CmsState

The 60-second read cache is modelled as always missing (it is a
performance layer cleared on every mutation), and _ensure_repo_available
swallows every error in the source, so reads are modelled against the
current working tree. -/

/-- read_file_from_repo: text files only; in DEBUG mode a missing clone
file falls back to the output directory. -/
def read_file_from_repo (debug : Bool) (st : CmsState) (path : String)
    : Option String :=
  match assocGet st.repoFiles path with
  | some (.txt s) => some s
  | some (.bin _) => none
  | none =>
      if debug then
        match assocGet st.outputFiles path with
        | some (.txt s) => some s
        | _ => none
      else none

def strLeB (a b : String) : Bool := decide (a < b) || a == b

def sortedInsert (x : String) : List String → List String
  | [] => [x]
  | y :: ys => if strLeB x y then x :: y :: ys else y :: sortedInsert x ys

def sortStrings (l : List String) : List String := l.foldr sortedInsert []

/-- list_files_in_directory with the default *.md pattern: direct
children of the directory ending in .md, sorted. -/
def list_files_in_directory (st : CmsState) (dir : String) : List String :=
  sortStrings (st.repoFiles.filterMap (fun kv =>
    if dir.data.isPrefixOf kv.1.data && ".md".data.isSuffixOf kv.1.data &&
        !((kv.1.data.drop dir.data.length).contains '/') then
      some kv.1
    else none))

/-- Python Path(p).stem: last path component without its last suffix. -/
def stemOf (p : String) : String :=
  let fname := p.data.foldl (fun acc ch => if ch == '/' then [] else acc ++ [ch]) []
  if fname.contains '.' then
    ⟨((fname.reverse.dropWhile (fun c => !(c == '.'))).drop 1).reverse⟩
  else ⟨fname⟩

/-- One row of the list_content result (modified_date, an OS timestamp,
is omitted). -/
structure ContentItem where
  content_type : String
  slug : Val
  title : Val
  frontmatter : FM
  file_path : String
deriving DecidableEq

/-- _get_title_from_frontmatter. -/
def titleReader (fmOpt : Option FM) : Val :=
  match fmOpt with
  | none => .str "Untitled"
  | some fm =>
      pyOrV (fmGet fm "title")
        (pyOrV (fmGet fm "heading") (pyOrV (fmGet fm "name") (.str "Untitled")))

def mkContentItem (ct fp raw : String) : ContentItem :=
  let pr := parseFrontmatterCore raw.data
  let slug0 : Val :=
    match pr.1 with
    | some fm => fmGetD fm "slug" (.str "")
    | none => .str ""
  { content_type := ct
    slug := if valTruthy slug0 then slug0 else .str (stemOf fp)
    title := titleReader pr.1
    frontmatter := pr.1.getD []
    file_path := fp }

def listContentOne (debug : Bool) (st : CmsState) (ct : String)
    : List ContentItem :=
  match contentTypeGet ct with
  | none => []
  | some schema =>
      (list_files_in_directory st schema.directory).filterMap (fun fp =>
        (read_file_from_repo debug st fp).map (mkContentItem ct fp))

/-- list_content: scan the requested type, or every catalog type. -/
def list_content (debug : Bool) (st : CmsState) (ctFilter : Option String)
    : List ContentItem :=
  let types := match ctFilter with | some ct => [ct] | none => contentTypeKeys
  (types.map (listContentOne debug st)).flatten

/-- _find_file_path_by_slug: direct path first, then scan the type
directory matching the frontmatter slug. -/
def find_file_path_by_slug (debug : Bool) (st : CmsState) (ct : String)
    (slug : Val) : Option String :=
  match contentTypeGet ct with
  | none => none
  | some schema =>
      let direct := schema.directory ++ filenameFor slug
      if (read_file_from_repo debug st direct).isSome then some direct
      else
        (list_content debug st (some ct)).findSome? (fun item =>
          if item.slug == slug then some item.file_path else none)

def check_slug_exists (debug : Bool) (st : CmsState) (ct : String) (slug : Val)
    : Bool :=
  (find_file_path_by_slug debug st ct slug).isSome

structure ReadResult where
  frontmatter : FM
  body : String
  raw_markdown : String
  file_path : String
deriving DecidableEq

/-- read_content. -/
def read_content (debug : Bool) (st : CmsState) (ct : String) (slug : Val)
    : Option ReadResult :=
  match find_file_path_by_slug debug st ct slug with
  | none => none
  | some fp =>
      match read_file_from_repo debug st fp with
      | none => none
      | some raw =>
          let pr := parse_frontmatter raw
          some { frontmatter := pr.1.getD [], body := pr.2,
                 raw_markdown := raw, file_path := fp }

/-! ## chat/views.py: the action dispatcher

The git transport, the filesystem and the database raising are external
effects; each fallible step of the publish attempt carries an outcome
flag in PubEnv.  A true flag means the Python call returns normally, a
false flag means it raises. -/

structure PubEnv where
  debug : Bool
  ensureRepoOk : Bool := true
  writeContentOk : Bool := true
  writeImageOk : Bool := true
  commitOk : Bool := true
  commitSha : String := "sha0"
  draftSaveOk : Bool := true
deriving DecidableEq

def PubEnv.allOk (env : PubEnv) : Bool :=
  env.ensureRepoOk && env.writeContentOk && env.writeImageOk &&
    env.commitOk && env.draftSaveOk

/-- Result of a try block: the state reached so far on an exception, or
the commit sha and final state on success. -/
inductive StepResult where
  | ok (sha : String) (st : CmsState)
  | failed (st : CmsState)
deriving DecidableEq

/-- The structured result returned next to the reply text. -/
inductive ActionResult where
  | errorMsg (msg : String)
  | contentCreated (title : Val)
  | contentEdited (title : Val)
  | contentDeleted (title : Val)
  | draftPending
deriving DecidableEq

def optBytesTruthy : Option Bytes → Bool
  | some bts => !bts.isEmpty
  | none => false

def optStrTruthy : Option String → Bool
  | some s => !(s == "")
  | none => false

def slugOf (fm : FM) : Val := fmGetD fm "slug" (.str "")

def groupOf (fm : FM) : Val := fmGetD fm "localGroup" (.str "")

/-- The title expression of the create and edit handlers:
fm.get(title) or fm.get(heading) or fm.get(name, Untitled). -/
def createTitle (fm : FM) : Val :=
  pyOrV (fmGet fm "title")
    (pyOrV (fmGet fm "heading") (fmGetD fm "name" (.str "Untitled")))

/-- The published ContentDraft row recorded after a successful publish
or edit commit. -/
def publishedDraftRec (contentType : String) (title slug : Val) (fm : FM)
    (body userName sha : String) : DraftRec :=
  { content_type := contentType, title := title, slug := slug,
    frontmatter_json := fm, body_markdown := body, status := "published",
    git_commit_sha := sha, created_by := userName }

def auditRecFor (contentType : String) (slug : Val) (action userName sha : String)
    : AuditRec :=
  { content_type := contentType, slug := slug, action := action,
    user := userName, git_commit_sha := sha }

/-- The f-string commit message of the create and edit handlers. -/
def commitMsgFor (verb contentType : String) (title : Val) (userName : String)
    : String :=
  verb ++ " " ++ contentType ++ ": " ++ pyStr title ++
    " — via MMTUK CMS (" ++ userName ++ ")"

/-- The tail of both try blocks: create the published ContentDraft row,
then the audit entry (audit logging and cache invalidation never raise,
the source wraps them in their own try). -/
def finishRecord (env : PubEnv) (contentType : String) (title slug : Val)
    (fm : FM) (body : String) (userName action sha : String) (st : CmsState)
    : StepResult :=
  if !env.draftSaveOk then .failed st
  else
    let st1 := { st with drafts := st.drafts ++
      [publishedDraftRec contentType title slug fm body userName sha] }
    let st2 := { st1 with audits := st1.audits ++
      [auditRecFor contentType slug action userName sha] }
    .ok sha st2

def commitStep (env : PubEnv) (contentType : String) (title slug : Val)
    (fm : FM) (body : String) (userName authorName verb action : String)
    (files : List String) (st : CmsState) : StepResult :=
  if !env.commitOk then .failed st
  else
    let st1 := { st with commits := st.commits ++
      [{ files := files, message := commitMsgFor verb contentType title userName,
         author_name := authorName, sha := env.commitSha }] }
    finishRecord env contentType title slug fm body userName action
      env.commitSha st1

/-- The try block shared by the create and edit handlers: in DEBUG mode
write to the output directory with sha debug-mode and no commit,
otherwise ensure_repo, write the content file (and the image file when
both image bytes and path are truthy), then commit_locally; finally the
published draft row and the audit entry.  verb/action are Add/create for
the create handler and Edit/edit for the edit handler. -/
def attemptBlock (env : PubEnv) (st : CmsState) (filePath markdown : String)
    (imageBytes : Option Bytes) (imagePath : Option String)
    (contentType : String) (title slug : Val) (fm : FM) (body : String)
    (userName authorName verb action : String) : StepResult :=
  let img := optBytesTruthy imageBytes && optStrTruthy imagePath
  if env.debug then
    if !env.writeContentOk then .failed st
    else
      let st1 := writeOutputFile st filePath (.txt markdown)
      if img then
        if !env.writeImageOk then .failed st1
        else
          finishRecord env contentType title slug fm body userName action
            "debug-mode"
            (writeOutputFile st1 (imagePath.getD "") (.bin (imageBytes.getD [])))
      else
        finishRecord env contentType title slug fm body userName action
          "debug-mode" st1
  else
    if !env.ensureRepoOk then .failed st
    else if !env.writeContentOk then .failed st
    else
      let st1 := writeRepoFile st filePath (.txt markdown)
      if img then
        if !env.writeImageOk then .failed st1
        else
          let st2 := writeRepoFile st1 (imagePath.getD "") (.bin (imageBytes.getD []))
          commitStep env contentType title slug fm body userName authorName
            verb action [filePath, imagePath.getD ""] st2
      else
        commitStep env contentType title slug fm body userName authorName
          verb action [filePath] st1

/-- The pending ContentDraft row created when the actor cannot publish
directly, or when the publish attempt raised. -/
def pendingDraft (contentType : String) (title slug : Val) (fm : FM)
    (body : String) (imageBytes : Option Bytes) (imagePath : Option String)
    (userName : String) : DraftRec :=
  { content_type := contentType, title := title, slug := slug,
    frontmatter_json := fm, body_markdown := body,
    image_data := imageBytes, image_path := imagePath.getD "",
    status := "pending", created_by := userName }

def createValidationMsg (errs : List String) : String :=
  "There were validation errors:\n" ++
    String.intercalate "\n" (errs.map (fun e => "- " ++ e))

def editValidationMsg (errs : List String) : String :=
  "Validation errors:\n" ++
    String.intercalate "\n" (errs.map (fun e => "- " ++ e))

/-- _handle_content_action from chat/views.py.  Image resolution
(get_pdf_image / process_image, lines 309-337) is delegated to external
collaborators in the source; the resolved payload enters here as the
imageBytes / imagePath arguments. -/
def handle_content_action (env : PubEnv) (profile : UserProfile)
    (userName authorName : String) (contentType : String) (frontmatter : FM)
    (body : String) (imageBytes : Option Bytes) (imagePath : Option String)
    (st : CmsState) : ActionResult × CmsState :=
  let slug := slugOf frontmatter
  let title := createTitle frontmatter
  if check_slug_exists env.debug st contentType slug then
    (.errorMsg ("Duplicate slug: " ++ pyStr slug), st)
  else
    let localGroup := groupOf frontmatter
    if !(can_create profile (.str contentType) localGroup) then
      (.errorMsg "Permission denied", st)
    else
      let gen := generate_markdown contentType frontmatter body
      if !gen.2.isEmpty then (.errorMsg (createValidationMsg gen.2), st)
      else
        let markdown := gen.1.getD ""
        let canPub := can_publish_directly profile (.str contentType) localGroup
        let filePath := (get_file_path contentType slug).getD ""
        if canPub then
          match attemptBlock env st filePath markdown imageBytes imagePath
              contentType title slug frontmatter body userName authorName
              "Add" "create" with
          | .ok _ st2 => (.contentCreated title, st2)
          | .failed stf =>
              (.draftPending, { stf with drafts := stf.drafts ++
                [pendingDraft contentType title slug frontmatter body
                  imageBytes imagePath userName] })
        else
          (.draftPending, { st with drafts := st.drafts ++
            [pendingDraft contentType title slug frontmatter body
              imageBytes imagePath userName] })

/-- _handle_edit_action from chat/views.py. -/
def handle_edit_action (env : PubEnv) (profile : UserProfile)
    (userName authorName : String) (contentType slugStr : String)
    (newFrontmatter : FM) (newBody : Option String)
    (imageBytes : Option Bytes) (imagePath : Option String) (st : CmsState)
    : ActionResult × CmsState :=
  if contentType == "" || slugStr == "" then
    (.errorMsg "Missing content type or slug", st)
  else
    let localGroup := groupOf newFrontmatter
    if !(can_edit profile (.str contentType) localGroup) then
      (.errorMsg "Permission denied", st)
    else
      match read_content env.debug st contentType (.str slugStr) with
      | none => (.errorMsg "Content not found", st)
      | some existing =>
          let merged := fmUpdate existing.frontmatter newFrontmatter
          let body := newBody.getD existing.body
          let title := createTitle merged
          let gen := generate_markdown contentType merged body
          if !gen.2.isEmpty then (.errorMsg (editValidationMsg gen.2), st)
          else
            let markdown := gen.1.getD ""
            let filePath := (get_file_path contentType (.str slugStr)).getD ""
            match attemptBlock env st filePath markdown imageBytes imagePath
                contentType title (.str slugStr) merged body userName
                authorName "Edit" "edit" with
            | .ok _ st2 => (.contentEdited title, st2)
            | .failed stf => (.errorMsg "Failed to save edits", stf)

/-- pending_list from chat/views.py: the permission gate calls
can_approve with no arguments, then pending drafts are filtered, with
the extra scoping filter for group leads.  none models the Forbidden
response. -/
def pending_list (profile : UserProfile) (drafts : List DraftRec)
    : Option (List DraftRec) :=
  if !(can_approve profile) then none
  else
    let pending := drafts.filter (fun d => d.status == "pending")
    if profile.role == .group_lead then
      some (pending.filter (fun d =>
        (d.content_type == "local_event" || d.content_type == "local_news") &&
          fmGet d.frontmatter_json "localGroup" == some (.str profile.local_group)))
    else some pending

/-! ## chat/services/git_service.py: lock discipline

Each service function is modelled by the sequence of lock and git
events it performs, in source order.  lockedFrom checks that every git
mutation event happens at positive lock depth. -/

inductive GitEvent where
  | acquire
  | release
  | gitOp (name : String)
deriving DecidableEq

def lockedFrom : Nat → List GitEvent → Bool
  | _, [] => true
  | d, .acquire :: r => lockedFrom (d + 1) r
  | d, .release :: r => lockedFrom (d - 1) r
  | d, .gitOp _ :: r => decide (0 < d) && lockedFrom d r

def lockedThroughout (tr : List GitEvent) : Bool := lockedFrom 0 tr

/-- commit_locally: the whole body runs inside with _git_lock; DEBUG
mode returns before touching git.  filesExist records, per staged path,
whether the file still exists (add) or was deleted (stage removal). -/
def commitLocallyTrace (debug : Bool) (filesExist : List Bool) : List GitEvent :=
  .acquire ::
    (if debug then []
     else
       (filesExist.map (fun ex =>
         if ex then GitEvent.gitOp "index.add" else GitEvent.gitOp "index.remove"))
         ++ [.gitOp "index.commit"]) ++ [.release]

/-- push_to_remote: body inside with _git_lock; returns early in DEBUG
mode, when the clone is missing, and when no commits are ahead;
otherwise pushes, retrying once after a pull --rebase. -/
def pushToRemoteTrace (debug present : Bool) (aheadCount : Nat)
    (firstPushOk : Bool) : List GitEvent :=
  .acquire ::
    (if debug then []
     else if !present then []
     else if aheadCount == 0 then []
     else if firstPushOk then [.gitOp "push"]
     else [.gitOp "push", .gitOp "pull --rebase", .gitOp "push"]) ++ [.release]

/-- ensure_repo: clone when absent, otherwise fetch, checkout and either
rebase (with abort plus hard reset on conflict) or hard reset.  No lock
acquisition appears anywhere in the source function. -/
def ensureRepoTrace (present ahead rebaseOk : Bool) : List GitEvent :=
  if !present then [.gitOp "clone"]
  else
    [.gitOp "fetch", .gitOp "checkout"] ++
      (if ahead then
        (if rebaseOk then [.gitOp "rebase"]
         else [.gitOp "rebase", .gitOp "rebase --abort", .gitOp "reset --hard"])
       else [.gitOp "reset --hard"])

/-- write_file_to_repo: a direct working-tree write, no lock. -/
def writeFileTrace : List GitEvent := [.gitOp "write file"]

/-- delete_file_from_repo: unlink when the file exists, no lock. -/
def deleteFileTrace (present : Bool) : List GitEvent :=
  if present then [.gitOp "delete file"] else []

/-! ## git_service.py: mirror state machine

The local mirror relative to the remote branch: remoteSeen is the remote
history the local branch currently sits on, extra the local-only
(unpushed) commits on top, rebasing whether a rebase is in progress.
applyCmd gives the git semantics of each primitive command; a
conflicting rebase stops mid-rebase until aborted. -/

structure Mirror where
  present : Bool
  remoteSeen : List Nat := []
  extra : List Nat := []
  rebasing : Bool := false
deriving DecidableEq

structure Remote where
  hist : List Nat
deriving DecidableEq

inductive GitCmd where
  | cloneBranch
  | fetch
  | checkoutBranch
  | rebaseOnto
  | rebaseAbort
  | resetHard
deriving DecidableEq

def applyCmd (r : Remote) (rebaseConflicts : Bool) (m : Mirror) : GitCmd → Mirror
  | .cloneBranch =>
      { present := true, remoteSeen := r.hist, extra := [], rebasing := false }
  | .fetch => m
  | .checkoutBranch => m
  | .rebaseOnto =>
      if rebaseConflicts then { m with rebasing := true }
      else { m with remoteSeen := r.hist }
  | .rebaseAbort => { m with rebasing := false }
  | .resetHard => { m with remoteSeen := r.hist, extra := [], rebasing := false }

/-- ensure_repo as a transition on the mirror: clone when absent;
otherwise fetch, checkout, then rebase local commits when ahead (abort
and hard reset if the rebase raises) or hard reset when not ahead.
iter_commits origin/branch..branch is the extra list. -/
def ensure_repo (r : Remote) (rebaseConflicts : Bool) (m : Mirror) : Mirror :=
  if !m.present then applyCmd r rebaseConflicts m .cloneBranch
  else
    let m1 := applyCmd r rebaseConflicts m .fetch
    let m2 := applyCmd r rebaseConflicts m1 .checkoutBranch
    if !m2.extra.isEmpty then
      let m3 := applyCmd r rebaseConflicts m2 .rebaseOnto
      if m3.rebasing then
        let m4 := applyCmd r rebaseConflicts m3 .rebaseAbort
        applyCmd r rebaseConflicts m4 .resetHard
      else m3
    else applyCmd r rebaseConflicts m2 .resetHard

/-- Outcome of push_to_remote: the returned count (none when the second
push attempt also raises and the exception propagates), the new mirror
and remote states, and how many network push attempts were made. -/
structure PushResult where
  result : Option Nat
  m : Mirror
  r : Remote
  netPushes : Nat
deriving DecidableEq

/-- push_to_remote on the mirror model.  A push succeeds exactly when
the local branch sits on the current remote tip (fast-forward); on
rejection the source pulls with rebase once (which can itself conflict
and raise) and retries. -/
def push_to_remote (debug : Bool) (pullRebaseConflicts : Bool) (m : Mirror)
    (r : Remote) : PushResult :=
  if debug then ⟨some 0, m, r, 0⟩
  else if !m.present then ⟨some 0, m, r, 0⟩
  else
    let count := m.extra.length
    if count == 0 then ⟨some 0, m, r, 0⟩
    else if m.remoteSeen == r.hist then
      let rNew : Remote := ⟨r.hist ++ m.extra⟩
      ⟨some count, { m with remoteSeen := rNew.hist, extra := [] }, rNew, 1⟩
    else if pullRebaseConflicts then
      ⟨none, { m with rebasing := true }, r, 1⟩
    else
      let m1 := { m with remoteSeen := r.hist }
      let rNew : Remote := ⟨r.hist ++ m1.extra⟩
      ⟨some count, { m1 with remoteSeen := rNew.hist, extra := [] }, rNew, 2⟩

/-! ## Association-list lemmas -/

theorem assocGet_assocSet_same {α : Type} (m : List (String × α)) (k : String)
    (v : α) : assocGet (assocSet m k v) k = some v := by
  induction m with
  | nil => simp [assocGet, assocSet]
  | cons kv r ih =>
      by_cases h : kv.1 = k
      · simp [assocSet, assocGet, h]
      · simp [assocSet, assocGet, h, ih]

theorem assocGet_assocSet_other {α : Type} (m : List (String × α))
    (k k2 : String) (v : α) (h : k2 ≠ k) :
    assocGet (assocSet m k2 v) k = assocGet m k := by
  induction m with
  | nil => simp [assocGet, assocSet, h]
  | cons kv r ih =>
      by_cases hk : kv.1 = k2
      · simp [assocSet, assocGet, hk, h]
      · simp [assocSet, assocGet, hk, ih]

theorem assocGet_eq_none_of_not_mem {α : Type} (m : List (String × α))
    (k : String) (h : k ∉ m.map Prod.fst) : assocGet m k = none := by
  induction m with
  | nil => rfl
  | cons kv r ih =>
      simp only [List.map_cons, List.mem_cons] at h
      push_neg at h
      have h1 : ¬(kv.1 = k) := fun hh => h.1 hh.symm
      simp [assocGet, h1, ih h.2]

/-- Keys absent from p keep their binding through fmUpdate. -/
theorem fmGet_fmUpdate_of_none (p e : FM) (k : String)
    (h : fmGet p k = none) : fmGet (fmUpdate e p) k = fmGet e k := by
  induction p generalizing e with
  | nil => rfl
  | cons kv r ih =>
      simp only [fmGet, assocGet] at h
      by_cases hk : kv.1 = k
      · rw [if_pos hk] at h; exact absurd h (by simp)
      · rw [if_neg hk] at h
        show fmGet (fmUpdate (assocSet e kv.1 kv.2) r) k = fmGet e k
        rw [ih (assocSet e kv.1 kv.2) h]
        exact assocGet_assocSet_other e k kv.1 kv.2 hk

/-- Keys present in p (with distinct keys, as in a Python dict) take the
value from p through fmUpdate. -/
theorem fmGet_fmUpdate_of_some (p e : FM) (k : String) (v : Val)
    (hnd : (p.map Prod.fst).Nodup) (h : fmGet p k = some v) :
    fmGet (fmUpdate e p) k = some v := by
  induction p generalizing e with
  | nil => simp [fmGet, assocGet] at h
  | cons kv r ih =>
      simp only [List.map_cons, List.nodup_cons] at hnd
      simp only [fmGet, assocGet] at h
      by_cases hk : kv.1 = k
      · subst hk
        rw [if_pos rfl] at h
        show fmGet (fmUpdate (assocSet e kv.1 kv.2) r) kv.1 = some v
        have hnone : fmGet r kv.1 = none :=
          assocGet_eq_none_of_not_mem r kv.1 hnd.1
        rw [fmGet_fmUpdate_of_none r (assocSet e kv.1 kv.2) kv.1 hnone]
        rw [← h]
        exact assocGet_assocSet_same e kv.1 kv.2
      · rw [if_neg hk] at h
        show fmGet (fmUpdate (assocSet e kv.1 kv.2) r) k = some v
        exact ih (assocSet e kv.1 kv.2) hnd.2 h

/-! ## Claim theorems -/

/-- C6: a create intent whose (content_type, slug) already resolves to
an existing content file returns the duplicate-slug error and leaves the
whole state (files, commits, drafts, audit log) unchanged. -/
theorem c6_duplicate_slug_no_mutation (env : PubEnv) (profile : UserProfile)
    (userName authorName contentType : String) (frontmatter : FM)
    (body : String) (imageBytes : Option Bytes) (imagePath : Option String)
    (st : CmsState)
    (hdup : check_slug_exists env.debug st contentType (slugOf frontmatter) = true) :
    handle_content_action env profile userName authorName contentType
        frontmatter body imageBytes imagePath st =
      (.errorMsg ("Duplicate slug: " ++ pyStr (slugOf frontmatter)), st) := by
  unfold handle_content_action
  simp [hdup]

def newsState : CmsState :=
  { repoFiles := [("src/content/news/t.md", .txt "stub")] }

def newsFM : FM := [("slug", .str "t"), ("title", .str "T")]

def prodEnv : PubEnv := { debug := false }

def adminP : UserProfile := { role := .admin }

/-- Witness for C6 at a concrete state holding the clashing file. -/
theorem c6_duplicate_slug_no_mutation_witness :
    check_slug_exists prodEnv.debug newsState "news" (slugOf newsFM) = true ∧
      handle_content_action prodEnv adminP "u" "U" "news" newsFM "B" none none
          newsState =
        (.errorMsg ("Duplicate slug: " ++ pyStr (slugOf newsFM)), newsState) :=
  ⟨by decide, c6_duplicate_slug_no_mutation prodEnv adminP "u" "U" "news" newsFM
    "B" none none newsState (by decide)⟩

def oxfordLead : UserProfile := { role := .group_lead, local_group := "oxford" }

def oxPending : DraftRec :=
  { content_type := "local_event", title := .str "T", slug := .str "t",
    frontmatter_json := [("localGroup", .str "oxford")], body_markdown := "",
    status := "pending", created_by := "lead" }

/-- C3: the claim says a group lead with a non-empty local group is
permitted to list pending drafts and sees the matching ones.  The code
instead returns Forbidden: pending_list gates on can_approve() called
with no arguments, which is false for every group lead, so the
group-scoped filter below the gate is dead code.  Here a group lead of
oxford is denied even though a pending oxford local_event draft exists. -/
theorem c3_group_lead_pending_list_forbidden :
    pending_list oxfordLead [oxPending] = none := by decide

/-- C2 counterexample: ensure_repo performs git mutations at lock depth
zero (the claim says every listed operation runs under the lock). -/
theorem c2_ensure_repo_unlocked :
    lockedThroughout (ensureRepoTrace true true true) = false := by decide

def isGitOp : GitEvent → Bool
  | .gitOp _ => true
  | _ => false

theorem lockedFrom_gitOps_release (d : Nat) (l : List GitEvent)
    (h : l.all isGitOp = true) :
    lockedFrom (d + 1) (l ++ [GitEvent.release]) = true := by
  induction l generalizing d with
  | nil => rfl
  | cons e r ih =>
      cases e with
      | acquire => simp [isGitOp] at h
      | release => simp [isGitOp] at h
      | gitOp n =>
          simp only [List.all_cons, Bool.and_eq_true] at h
          simp [lockedFrom, ih d h.2]

/-- C2 amended: commit_locally and push_to_remote execute entirely under
the process-wide git lock, while ensure_repo, write_file_to_repo and
delete_file_from_repo perform their git mutations without ever acquiring
it. -/
theorem c2_lock_covers_only_commit_and_push (debug : Bool)
    (filesExist : List Bool) (debug2 present : Bool) (aheadCount : Nat)
    (firstPushOk : Bool) (present2 ahead rebaseOk : Bool) :
    lockedThroughout (commitLocallyTrace debug filesExist) = true ∧
      lockedThroughout (pushToRemoteTrace debug2 present aheadCount firstPushOk)
        = true ∧
      lockedThroughout (ensureRepoTrace present2 ahead rebaseOk) = false ∧
      lockedThroughout writeFileTrace = false ∧
      lockedThroughout (deleteFileTrace true) = false := by
  refine ⟨?_, ?_, ?_, by decide, by decide⟩
  · cases debug with
    | true => rfl
    | false =>
        show lockedFrom 1
          (((filesExist.map fun ex =>
              if ex then GitEvent.gitOp "index.add"
              else GitEvent.gitOp "index.remove") ++
            [GitEvent.gitOp "index.commit"]) ++ [GitEvent.release]) = true
        apply lockedFrom_gitOps_release 0
        rw [List.all_append]
        simp only [Bool.and_eq_true]
        constructor
        · rw [List.all_eq_true]
          intro e he
          rw [List.mem_map] at he
          obtain ⟨b, _, rfl⟩ := he
          cases b <;> rfl
        · decide
  · show lockedFrom 1
      ((if debug2 then []
        else if !present then []
        else if aheadCount == 0 then []
        else if firstPushOk then [GitEvent.gitOp "push"]
        else [GitEvent.gitOp "push", GitEvent.gitOp "pull --rebase",
              GitEvent.gitOp "push"]) ++ [GitEvent.release]) = true
    apply lockedFrom_gitOps_release 0
    cases debug2 <;> cases present <;> cases firstPushOk <;>
      cases h : (aheadCount == 0) <;> simp [h, isGitOp]
  · cases present2 <;> cases ahead <;> cases rebaseOk <;> decide

/-- C8: ensure_repo on an existing, clean mirror always terminates on
the fetched remote tip and never mid-rebase; local unpushed commits are
preserved when the rebase succeeds and discarded (abort plus hard reset)
when it conflicts; with no unpushed commits it hard-resets. -/
theorem c8_ensure_repo_rebase_fallback (r : Remote) (conflicts : Bool)
    (m : Mirror) (hp : m.present = true) (hr : m.rebasing = false) :
    (ensure_repo r conflicts m).rebasing = false ∧
      (ensure_repo r conflicts m).present = true ∧
      (ensure_repo r conflicts m).remoteSeen = r.hist ∧
      (m.extra ≠ [] → conflicts = false →
        (ensure_repo r conflicts m).extra = m.extra) ∧
      (m.extra ≠ [] → conflicts = true →
        (ensure_repo r conflicts m).extra = []) ∧
      (m.extra = [] → (ensure_repo r conflicts m).extra = []) := by
  unfold ensure_repo applyCmd
  cases he : m.extra with
  | nil => simp [hp, hr, he]
  | cons a l =>
      cases conflicts with
      | false => simp [hp, hr, he]
      | true => simp [hp, hr, he]

def aheadMirror : Mirror :=
  { present := true, remoteSeen := [1], extra := [7, 8] }

/-- Witness for C8: a mirror two commits ahead of a remote that gained a
commit, in both the clean-rebase and the conflicting case. -/
theorem c8_ensure_repo_rebase_fallback_witness :
    aheadMirror.present = true ∧ aheadMirror.rebasing = false ∧
      (ensure_repo ⟨[1, 2]⟩ false aheadMirror).extra = aheadMirror.extra ∧
      (ensure_repo ⟨[1, 2]⟩ true aheadMirror).extra = [] ∧
      (ensure_repo ⟨[1, 2]⟩ true aheadMirror).rebasing = false ∧
      (ensure_repo ⟨[1, 2]⟩ true aheadMirror).remoteSeen = [1, 2] := by
  refine ⟨rfl, rfl, ?_, ?_, ?_, ?_⟩
  · exact (c8_ensure_repo_rebase_fallback ⟨[1, 2]⟩ false aheadMirror rfl
      rfl).2.2.2.1 (by decide) rfl
  · exact (c8_ensure_repo_rebase_fallback ⟨[1, 2]⟩ true aheadMirror rfl
      rfl).2.2.2.2.1 (by decide) rfl
  · exact (c8_ensure_repo_rebase_fallback ⟨[1, 2]⟩ true aheadMirror rfl rfl).1
  · exact (c8_ensure_repo_rebase_fallback ⟨[1, 2]⟩ true aheadMirror rfl
      rfl).2.2.1

/-- C9: with zero commits ahead push_to_remote returns 0 and makes no
network push; and after any call that returns normally, an immediately
repeated call returns 0 without pushing. -/
theorem c9_push_idempotent (debug pc pc2 : Bool) (m : Mirror) (r : Remote) :
    (m.extra = [] →
      (push_to_remote debug pc m r).result = some 0 ∧
        (push_to_remote debug pc m r).netPushes = 0) ∧
      (∀ n, (push_to_remote debug pc m r).result = some n →
        (push_to_remote debug pc2 (push_to_remote debug pc m r).m
            (push_to_remote debug pc m r).r).result = some 0 ∧
          (push_to_remote debug pc2 (push_to_remote debug pc m r).m
            (push_to_remote debug pc m r).r).netPushes = 0) := by
  cases debug with
  | true => exact ⟨fun _ => ⟨rfl, rfl⟩, fun n _ => ⟨rfl, rfl⟩⟩
  | false =>
      cases hp : m.present with
      | false => simp [push_to_remote, hp]
      | true =>
          cases he : m.extra with
          | nil => simp [push_to_remote, hp, he]
          | cons a l =>
              cases hseen : (m.remoteSeen == r.hist) with
              | true => simp [push_to_remote, hp, he, hseen]
              | false =>
                  cases hpc : pc with
                  | true => simp [push_to_remote, hp, he, hseen, hpc]
                  | false => simp [push_to_remote, hp, he, hseen, hpc]

/-- Witness for C9: a mirror one commit ahead; the first push succeeds
and the repeated call is a no-op returning 0. -/
theorem c9_push_idempotent_witness :
    (push_to_remote false false aheadMirror ⟨[1]⟩).result = some 2 ∧
      (push_to_remote false false
          (push_to_remote false false aheadMirror ⟨[1]⟩).m
          (push_to_remote false false aheadMirror ⟨[1]⟩).r).result = some 0 ∧
      (push_to_remote false false
          (push_to_remote false false aheadMirror ⟨[1]⟩).m
          (push_to_remote false false aheadMirror ⟨[1]⟩).r).netPushes = 0 :=
  ⟨by decide,
    ((c9_push_idempotent false false false aheadMirror ⟨[1]⟩).2 2 (by decide)).1,
    ((c9_push_idempotent false false false aheadMirror ⟨[1]⟩).2 2 (by decide)).2⟩

/-- The try block succeeds deterministically when every outcome flag is
good and DEBUG is off: file writes, one commit, the published draft row
and the audit entry. -/
theorem attemptBlock_ok (env : PubEnv) (st : CmsState) (fp md : String)
    (ib : Option Bytes) (ip : Option String) (ct : String) (title slug : Val)
    (fm : FM) (body : String) (uN aN verb action : String)
    (hdbg : env.debug = false) (hok : env.allOk = true) :
    attemptBlock env st fp md ib ip ct title slug fm body uN aN verb action =
      .ok env.commitSha
        { repoFiles :=
            if optBytesTruthy ib && optStrTruthy ip then
              assocSet (assocSet st.repoFiles fp (.txt md)) (ip.getD "")
                (.bin (ib.getD []))
            else assocSet st.repoFiles fp (.txt md)
          outputFiles := st.outputFiles
          drafts := st.drafts ++
            [publishedDraftRec ct title slug fm body uN env.commitSha]
          audits := st.audits ++ [auditRecFor ct slug action uN env.commitSha]
          commits := st.commits ++
            [{ files := if optBytesTruthy ib && optStrTruthy ip then
                  [fp, ip.getD ""] else [fp]
               message := commitMsgFor verb ct title uN
               author_name := aN, sha := env.commitSha }] } := by
  obtain ⟨h1, h2, h3, h4, h5⟩ : env.ensureRepoOk = true ∧
      env.writeContentOk = true ∧ env.writeImageOk = true ∧
      env.commitOk = true ∧ env.draftSaveOk = true := by
    simpa [PubEnv.allOk, Bool.and_eq_true, and_assoc] using hok
  cases himg : (optBytesTruthy ib && optStrTruthy ip) with
  | false =>
      simp [attemptBlock, commitStep, finishRecord, writeRepoFile, hdbg,
        h1, h2, h3, h4, h5, himg]
  | true =>
      simp [attemptBlock, commitStep, finishRecord, writeRepoFile, hdbg,
        h1, h2, h3, h4, h5, himg]

/-- C1: when the actor can publish directly and any step of the publish
attempt raises after validation passed (ensure_repo, the file writes,
commit_locally or the published-draft row creation), the handler returns
the draft_pending result and the final state carries a pending
ContentDraft whose frontmatter_json, body_markdown, image_data and
image_path are exactly the payload that was about to be published. -/
theorem c1_publish_failure_saves_pending (env : PubEnv) (p : UserProfile)
    (userName authorName contentType : String) (fm : FM) (body : String)
    (imageBytes : Option Bytes) (imagePath : Option String) (st stf : CmsState)
    (hdup : check_slug_exists env.debug st contentType (slugOf fm) = false)
    (hcreate : can_create p (.str contentType) (groupOf fm) = true)
    (hval : (generate_markdown contentType fm body).2 = [])
    (hpub : can_publish_directly p (.str contentType) (groupOf fm) = true)
    (hfail : attemptBlock env st
        ((get_file_path contentType (slugOf fm)).getD "")
        ((generate_markdown contentType fm body).1.getD "")
        imageBytes imagePath contentType (createTitle fm) (slugOf fm) fm body
        userName authorName "Add" "create" = .failed stf) :
    handle_content_action env p userName authorName contentType fm body
        imageBytes imagePath st =
      (.draftPending, { stf with drafts := stf.drafts ++
        [pendingDraft contentType (createTitle fm) (slugOf fm) fm body
          imageBytes imagePath userName] }) := by
  unfold handle_content_action
  simp [hdup, hcreate, hval, hpub, hfail]

def failEnv : PubEnv := { debug := false, commitOk := false, commitSha := "" }

def c1fm : FM :=
  [("title", .str "T"), ("slug", .str "t"), ("date", .str "2024-01-02"),
   ("category", .str "Update"), ("summary", .str "S")]

def c1stf : CmsState :=
  { repoFiles := [("src/content/news/t.md",
      .txt ((generate_markdown "news" c1fm "Body").1.getD ""))] }

/-- Witness for C1: an admin create of a news item where commit_locally
raises; the handler degrades to a pending draft holding the payload. -/
theorem c1_publish_failure_saves_pending_witness :
    check_slug_exists failEnv.debug {} "news" (slugOf c1fm) = false ∧
      can_create adminP (.str "news") (groupOf c1fm) = true ∧
      (generate_markdown "news" c1fm "Body").2 = [] ∧
      can_publish_directly adminP (.str "news") (groupOf c1fm) = true ∧
      attemptBlock failEnv {} ((get_file_path "news" (slugOf c1fm)).getD "")
          ((generate_markdown "news" c1fm "Body").1.getD "") none none "news"
          (createTitle c1fm) (slugOf c1fm) c1fm "Body" "u" "U" "Add" "create" =
        .failed c1stf ∧
      handle_content_action failEnv adminP "u" "U" "news" c1fm "Body" none none
          {} =
        (.draftPending, { c1stf with drafts := c1stf.drafts ++
          [pendingDraft "news" (createTitle c1fm) (slugOf c1fm) c1fm "Body"
            none none "u"] }) :=
  ⟨rfl, rfl, by decide, rfl, by decide,
    c1_publish_failure_saves_pending failEnv adminP "u" "U" "news" c1fm "Body"
      none none {} c1stf rfl rfl (by decide) rfl (by decide)⟩

/-- C4: a group lead may create local_event/local_news for any group,
but auto-publishes only for their own group.  With a foreign localGroup
the intent becomes a pending draft and no commit happens; with their own
group it publishes immediately (one commit, one published draft). -/
theorem c4_group_lead_group_scoping (env : PubEnv) (p : UserProfile)
    (userName authorName contentType : String) (fm : FM) (body : String)
    (imageBytes : Option Bytes) (imagePath : Option String) (st : CmsState)
    (hrole : p.role = .group_lead)
    (hct : contentType = "local_event" ∨ contentType = "local_news")
    (hdup : check_slug_exists env.debug st contentType (slugOf fm) = false)
    (hval : (generate_markdown contentType fm body).2 = []) :
    can_create p (.str contentType) (groupOf fm) = true ∧
      (groupOf fm ≠ .str p.local_group →
        can_publish_directly p (.str contentType) (groupOf fm) = false ∧
        handle_content_action env p userName authorName contentType fm body
            imageBytes imagePath st =
          (.draftPending, { st with drafts := st.drafts ++
            [pendingDraft contentType (createTitle fm) (slugOf fm) fm body
              imageBytes imagePath userName] })) ∧
      (groupOf fm = .str p.local_group →
        can_publish_directly p (.str contentType) (groupOf fm) = true ∧
        (env.debug = false → env.allOk = true →
          (handle_content_action env p userName authorName contentType fm body
              imageBytes imagePath st).1 = .contentCreated (createTitle fm) ∧
          (handle_content_action env p userName authorName contentType fm body
              imageBytes imagePath st).2.commits = st.commits ++
            [{ files := if optBytesTruthy imageBytes && optStrTruthy imagePath
                  then [(get_file_path contentType (slugOf fm)).getD "",
                        imagePath.getD ""]
                  else [(get_file_path contentType (slugOf fm)).getD ""]
               message := commitMsgFor "Add" contentType (createTitle fm) userName
               author_name := authorName, sha := env.commitSha }] ∧
          (handle_content_action env p userName authorName contentType fm body
              imageBytes imagePath st).2.drafts = st.drafts ++
            [publishedDraftRec contentType (createTitle fm) (slugOf fm) fm body
              userName env.commitSha])) := by
  have hmem : memStr (.str contentType) ["local_event", "local_news"] = true := by
    rcases hct with h | h <;> subst h <;> rfl
  have hcreate : can_create p (.str contentType) (groupOf fm) = true := by
    simp [can_create, hrole, hmem]
  refine ⟨hcreate, ?_, ?_⟩
  · intro hG
    have hpub : can_publish_directly p (.str contentType) (groupOf fm) = false := by
      simp [can_publish_directly, hrole, hmem, hG]
    refine ⟨hpub, ?_⟩
    unfold handle_content_action
    simp [hdup, hcreate, hval, hpub]
  · intro hG
    have hpub : can_publish_directly p (.str contentType) (groupOf fm) = true := by
      simp [can_publish_directly, hrole, hmem, hG]
    refine ⟨hpub, ?_⟩
    intro hdbg hok
    have hA := attemptBlock_ok env st
      ((get_file_path contentType (slugOf fm)).getD "")
      ((generate_markdown contentType fm body).1.getD "") imageBytes imagePath
      contentType (createTitle fm) (slugOf fm) fm body userName authorName
      "Add" "create" hdbg hok
    unfold handle_content_action
    simp [hdup, hcreate, hval, hpub, hA]

def londonEventFM : FM :=
  [("title", .str "Talk"), ("slug", .str "talk"),
   ("localGroup", .str "london"), ("date", .str "2024-05-01T18:00:00"),
   ("tag", .str "Lecture"), ("location", .str "Hall"),
   ("description", .str "A talk")]

def oxfordEventFM : FM :=
  [("title", .str "Talk"), ("slug", .str "talk"),
   ("localGroup", .str "oxford"), ("date", .str "2024-05-01T18:00:00"),
   ("tag", .str "Lecture"), ("location", .str "Hall"),
   ("description", .str "A talk")]

/-- Witness for C4: the oxford lead creating a london event gets a
pending draft with no commit; creating an oxford event publishes. -/
theorem c4_group_lead_group_scoping_witness :
    oxfordLead.role = .group_lead ∧
      check_slug_exists prodEnv.debug {} "local_event" (slugOf londonEventFM)
        = false ∧
      (generate_markdown "local_event" londonEventFM "").2 = [] ∧
      (generate_markdown "local_event" oxfordEventFM "").2 = [] ∧
      (can_publish_directly oxfordLead (.str "local_event")
          (groupOf londonEventFM) = false ∧
        handle_content_action prodEnv oxfordLead "u" "U" "local_event"
            londonEventFM "" none none {} =
          (.draftPending, { ({} : CmsState) with drafts :=
            ({} : CmsState).drafts ++
              [pendingDraft "local_event" (createTitle londonEventFM)
                (slugOf londonEventFM) londonEventFM "" none none "u"] })) ∧
      (handle_content_action prodEnv oxfordLead "u" "U" "local_event"
          oxfordEventFM "" none none {}).1 =
        .contentCreated (createTitle oxfordEventFM) ∧
      (handle_content_action prodEnv oxfordLead "u" "U" "local_event"
          oxfordEventFM "" none none {}).2.commits = ({} : CmsState).commits ++
        [{ files := [(get_file_path "local_event" (slugOf oxfordEventFM)).getD ""]
           message := commitMsgFor "Add" "local_event"
             (createTitle oxfordEventFM) "u"
           author_name := "U", sha := prodEnv.commitSha }] :=
  ⟨rfl, rfl, by decide, by decide,
    (c4_group_lead_group_scoping prodEnv oxfordLead "u" "U" "local_event"
      londonEventFM "" none none {} rfl (Or.inl rfl) rfl (by decide)).2.1
      (by decide),
    ((c4_group_lead_group_scoping prodEnv oxfordLead "u" "U" "local_event"
      oxfordEventFM "" none none {} rfl (Or.inl rfl) rfl (by decide)).2.2
      (by decide)).2 rfl rfl |>.1,
    (((c4_group_lead_group_scoping prodEnv oxfordLead "u" "U" "local_event"
      oxfordEventFM "" none none {} rfl (Or.inl rfl) rfl (by decide)).2.2
      (by decide)).2 rfl rfl).2.1⟩

/-- C5: a create intent passing the duplicate-slug, permission and
validation gates yields, for a contributor, a pending draft and zero
commits; for an editor on a type in the editor set, an immediate commit
and a published draft carrying the commit sha. -/
theorem c5_publish_rights_gating (env : PubEnv) (p : UserProfile)
    (userName authorName contentType : String) (fm : FM) (body : String)
    (imageBytes : Option Bytes) (imagePath : Option String) (st : CmsState)
    (hdup : check_slug_exists env.debug st contentType (slugOf fm) = false)
    (hcreate : can_create p (.str contentType) (groupOf fm) = true)
    (hval : (generate_markdown contentType fm body).2 = []) :
    (p.role = .contributor →
      handle_content_action env p userName authorName contentType fm body
          imageBytes imagePath st =
        (.draftPending, { st with drafts := st.drafts ++
          [pendingDraft contentType (createTitle fm) (slugOf fm) fm body
            imageBytes imagePath userName] })) ∧
      (p.role = .editor → memStr (.str contentType) editorTypes = true →
        env.debug = false → env.allOk = true →
        (handle_content_action env p userName authorName contentType fm body
            imageBytes imagePath st).1 = .contentCreated (createTitle fm) ∧
        (handle_content_action env p userName authorName contentType fm body
            imageBytes imagePath st).2.commits = st.commits ++
          [{ files := if optBytesTruthy imageBytes && optStrTruthy imagePath
                then [(get_file_path contentType (slugOf fm)).getD "",
                      imagePath.getD ""]
                else [(get_file_path contentType (slugOf fm)).getD ""]
             message := commitMsgFor "Add" contentType (createTitle fm) userName
             author_name := authorName, sha := env.commitSha }] ∧
        (handle_content_action env p userName authorName contentType fm body
            imageBytes imagePath st).2.drafts = st.drafts ++
          [publishedDraftRec contentType (createTitle fm) (slugOf fm) fm body
            userName env.commitSha]) := by
  constructor
  · intro hrole
    have hpub : can_publish_directly p (.str contentType) (groupOf fm) = false := by
      simp [can_publish_directly, hrole]
    unfold handle_content_action
    simp [hdup, hcreate, hval, hpub]
  · intro hrole hmem hdbg hok
    have hpub : can_publish_directly p (.str contentType) (groupOf fm) = true := by
      simp [can_publish_directly, hrole, hmem]
    have hA := attemptBlock_ok env st
      ((get_file_path contentType (slugOf fm)).getD "")
      ((generate_markdown contentType fm body).1.getD "") imageBytes imagePath
      contentType (createTitle fm) (slugOf fm) fm body userName authorName
      "Add" "create" hdbg hok
    unfold handle_content_action
    simp [hdup, hcreate, hval, hpub, hA]

def contributorP : UserProfile := { role := .contributor }

def editorP : UserProfile := { role := .editor }

def articleFM : FM :=
  [("title", .str "My Title"), ("slug", .str "my-title"),
   ("category", .str "Research"), ("author", .str "Al"),
   ("pubDate", .str "2024-01-02"), ("summary", .str "Sum")]

/-- Witness for C5: a contributor article becomes a pending draft with
no commit; an editor article commits and records a published draft. -/
theorem c5_publish_rights_gating_witness :
    check_slug_exists prodEnv.debug {} "article" (slugOf articleFM) = false ∧
      can_create contributorP (.str "article") (groupOf articleFM) = true ∧
      can_create editorP (.str "article") (groupOf articleFM) = true ∧
      (generate_markdown "article" articleFM "Body").2 = [] ∧
      handle_content_action prodEnv contributorP "u" "U" "article" articleFM
          "Body" none none {} =
        (.draftPending, { ({} : CmsState) with drafts :=
          ({} : CmsState).drafts ++
            [pendingDraft "article" (createTitle articleFM) (slugOf articleFM)
              articleFM "Body" none none "u"] }) ∧
      (handle_content_action prodEnv editorP "u" "U" "article" articleFM "Body"
          none none {}).1 = .contentCreated (createTitle articleFM) ∧
      (handle_content_action prodEnv editorP "u" "U" "article" articleFM "Body"
          none none {}).2.drafts = ({} : CmsState).drafts ++
        [publishedDraftRec "article" (createTitle articleFM) (slugOf articleFM)
          articleFM "Body" "u" prodEnv.commitSha] :=
  ⟨rfl, rfl, rfl, by decide,
    (c5_publish_rights_gating prodEnv contributorP "u" "U" "article" articleFM
      "Body" none none {} rfl rfl (by decide)).1 rfl,
    ((c5_publish_rights_gating prodEnv editorP "u" "U" "article" articleFM
      "Body" none none {} rfl rfl (by decide)).2 rfl rfl rfl rfl).1,
    ((c5_publish_rights_gating prodEnv editorP "u" "U" "article" articleFM
      "Body" none none {} rfl rfl (by decide)).2 rfl rfl rfl rfl).2.2⟩

/-- C7: the edit handler merges the supplied partial frontmatter into
the existing one field by field (supplied keys override, omitted keys
keep the existing binding), writes the markdown generated from exactly
that merge, records it in the published draft row, and preserves the
existing body byte for byte when no body was supplied while a supplied
body replaces it. -/
theorem c7_edit_merge_semantics (env : PubEnv) (p : UserProfile)
    (userName authorName contentType slugStr : String) (newFM : FM)
    (newBody : Option String) (imageBytes : Option Bytes)
    (imagePath : Option String) (st : CmsState) (ex : ReadResult)
    (hct : contentType ≠ "") (hslug : slugStr ≠ "")
    (hedit : can_edit p (.str contentType) (groupOf newFM) = true)
    (hread : read_content env.debug st contentType (.str slugStr) = some ex)
    (hnodup : (newFM.map Prod.fst).Nodup)
    (hval : (generate_markdown contentType (fmUpdate ex.frontmatter newFM)
        (newBody.getD ex.body)).2 = [])
    (hdbg : env.debug = false) (hok : env.allOk = true)
    (himg : (optBytesTruthy imageBytes && optStrTruthy imagePath) = false) :
    (∀ k v, fmGet newFM k = some v →
      fmGet (fmUpdate ex.frontmatter newFM) k = some v) ∧
      (∀ k, fmGet newFM k = none →
        fmGet (fmUpdate ex.frontmatter newFM) k = fmGet ex.frontmatter k) ∧
      (handle_edit_action env p userName authorName contentType slugStr newFM
          newBody imageBytes imagePath st).1 =
        .contentEdited (createTitle (fmUpdate ex.frontmatter newFM)) ∧
      assocGet (handle_edit_action env p userName authorName contentType
          slugStr newFM newBody imageBytes imagePath st).2.repoFiles
          ((get_file_path contentType (.str slugStr)).getD "") =
        some (.txt ((generate_markdown contentType
          (fmUpdate ex.frontmatter newFM) (newBody.getD ex.body)).1.getD "")) ∧
      (handle_edit_action env p userName authorName contentType slugStr newFM
          newBody imageBytes imagePath st).2.drafts = st.drafts ++
        [publishedDraftRec contentType
          (createTitle (fmUpdate ex.frontmatter newFM)) (.str slugStr)
          (fmUpdate ex.frontmatter newFM) (newBody.getD ex.body) userName
          env.commitSha] := by
  refine ⟨fun k v hv => fmGet_fmUpdate_of_some newFM ex.frontmatter k v hnodup hv,
    fun k hk => fmGet_fmUpdate_of_none newFM ex.frontmatter k hk, ?_⟩
  have hA := attemptBlock_ok env st
    ((get_file_path contentType (.str slugStr)).getD "")
    ((generate_markdown contentType (fmUpdate ex.frontmatter newFM)
      (newBody.getD ex.body)).1.getD "") imageBytes imagePath contentType
    (createTitle (fmUpdate ex.frontmatter newFM)) (.str slugStr)
    (fmUpdate ex.frontmatter newFM) (newBody.getD ex.body) userName authorName
    "Edit" "edit" hdbg hok
  unfold handle_edit_action
  simp [hct, hslug, hedit, hread, hval, himg, hA, assocGet_assocSet_same]

def c7env : PubEnv := { debug := false }

def c7P : FM := [("summary", .str "New sum")]

def c7st : CmsState :=
  { repoFiles := [("src/content/articles/my-title.md",
      .txt ((generate_markdown "article" articleFM "Old body").1.getD ""))] }

def c7ex : ReadResult :=
  { frontmatter :=
      [("title", .str "My Title"), ("slug", .str "my-title"),
       ("category", .str "Research"), ("layout", .str "default"),
       ("sector", .str "Economics"), ("author", .str "Al"),
       ("pubDate", .str "2024-01-02"), ("readTime", .num 5),
       ("summary", .str "Sum"), ("featured", .b false)]
    body := "Old body"
    raw_markdown := (generate_markdown "article" articleFM "Old body").1.getD ""
    file_path := "src/content/articles/my-title.md" }

/-- Witness for C7: editing the summary of an existing article overrides
that key, keeps the title binding, and preserves the body. -/
theorem c7_edit_merge_semantics_witness :
    read_content c7env.debug c7st "article" (.str "my-title") = some c7ex ∧
      (generate_markdown "article" (fmUpdate c7ex.frontmatter c7P)
        ((none : Option String).getD c7ex.body)).2 = [] ∧
      fmGet (fmUpdate c7ex.frontmatter c7P) "summary" = some (.str "New sum") ∧
      fmGet (fmUpdate c7ex.frontmatter c7P) "title" =
        fmGet c7ex.frontmatter "title" ∧
      (handle_edit_action c7env adminP "u" "U" "article" "my-title" c7P none
          none none c7st).2.drafts = c7st.drafts ++
        [publishedDraftRec "article"
          (createTitle (fmUpdate c7ex.frontmatter c7P)) (.str "my-title")
          (fmUpdate c7ex.frontmatter c7P) c7ex.body "u" c7env.commitSha] :=
  ⟨by decide, by decide,
    (c7_edit_merge_semantics c7env adminP "u" "U" "article" "my-title" c7P none
      none none c7st c7ex (by decide) (by decide) rfl (by decide) (by decide)
      (by decide) rfl (by decide) rfl).1 "summary" (.str "New sum") rfl,
    (c7_edit_merge_semantics c7env adminP "u" "U" "article" "my-title" c7P none
      none none c7st c7ex (by decide) (by decide) rfl (by decide) (by decide)
      (by decide) rfl (by decide) rfl).2.1 "title" rfl,
    (c7_edit_merge_semantics c7env adminP "u" "U" "article" "my-title" c7P none
      none none c7st c7ex (by decide) (by decide) rfl (by decide) (by decide)
      (by decide) rfl (by decide) rfl).2.2.2.2⟩

/-! ## C10: round trip of the content file format -/

def hasSub (pat cs : List Char) : Bool := (findSub pat cs).isSome

theorem hasSub_false_iff (pat cs : List Char) :
    hasSub pat cs = false ↔ findSub pat cs = none := by
  unfold hasSub
  cases findSub pat cs <;> simp

theorem isPrefixOf_append_big (pat zs ws : List Char)
    (h : pat.length ≤ zs.length) :
    pat.isPrefixOf (zs ++ ws) = pat.isPrefixOf zs := by
  induction pat generalizing zs with
  | nil => simp [List.isPrefixOf]
  | cons a ps ih =>
      cases zs with
      | nil => simp at h
      | cons b bs =>
          simp only [List.length_cons] at h
          simp only [List.cons_append, List.isPrefixOf, List.append_eq]
          rw [ih bs (by omega)]

theorem findSub_cons (pat : List Char) (c : Char) (cs : List Char) :
    findSub pat (c :: cs) =
      if pat.isPrefixOf (c :: cs) then some 0
      else (findSub pat cs).map (· + 1) := rfl

theorem findSub_none_cons (pat : List Char) (c : Char) (cs : List Char)
    (h : findSub pat (c :: cs) = none) :
    pat.isPrefixOf (c :: cs) = false ∧ findSub pat cs = none := by
  rw [findSub_cons] at h
  cases hp : pat.isPrefixOf (c :: cs) with
  | true => rw [hp] at h; simp at h
  | false =>
      rw [hp] at h
      simp only [if_false, Bool.false_eq_true] at h
      refine ⟨rfl, ?_⟩
      cases hf : findSub pat cs with
      | none => rfl
      | some i => rw [hf] at h; simp at h

/-- First-occurrence location: when the prefix (extended by the first
two marker characters) contains no marker, the marker planted after it
is the first occurrence. -/
theorem findSub_marker (cs ys : List Char)
    (h : hasSub yamlDashes (cs ++ ['-', '-']) = false) :
    findSub yamlDashes (cs ++ (yamlDashes ++ ys)) = some cs.length := by
  induction cs with
  | nil =>
      show findSub yamlDashes ('-' :: '-' :: '-' :: ys) = some 0
      rw [findSub_cons]
      simp [List.isPrefixOf, yamlDashes]
  | cons c cs' ih =>
      have h2 : findSub yamlDashes (c :: (cs' ++ ['-', '-'])) = none :=
        (hasSub_false_iff _ _).mp h
      obtain ⟨hp0, hrest⟩ := findSub_none_cons _ c _ h2
      have hpre : yamlDashes.isPrefixOf (c :: (cs' ++ (yamlDashes ++ ys)))
          = false := by
        have hsplit : c :: (cs' ++ (yamlDashes ++ ys)) =
            (c :: (cs' ++ ['-', '-'])) ++ ('-' :: ys) := by
          simp [yamlDashes]
        rw [hsplit, isPrefixOf_append_big _ _ _ (by simp [yamlDashes])]
        exact hp0
      show findSub yamlDashes (c :: (cs' ++ (yamlDashes ++ ys)))
        = some (cs'.length + 1)
      rw [findSub_cons, hpre]
      simp only [if_false, Bool.false_eq_true]
      rw [ih ((hasSub_false_iff _ _).mpr hrest)]
      rfl

theorem joinNl_cons_cons (l l2 : List Char) (ls : List (List Char)) :
    joinNl (l :: l2 :: ls) = l ++ '\n' :: joinNl (l2 :: ls) := rfl

theorem joinNl_append (xs ys : List (List Char)) (hx : xs ≠ []) (hy : ys ≠ []) :
    joinNl (xs ++ ys) = joinNl xs ++ '\n' :: joinNl ys := by
  induction xs with
  | nil => exact absurd rfl hx
  | cons l ls ih =>
      cases ls with
      | nil =>
          cases ys with
          | nil => exact absurd rfl hy
          | cons y ys' => rfl
      | cons l2 ls' =>
          rw [show (l :: l2 :: ls') ++ ys = l :: ((l2 :: ls') ++ ys) from rfl]
          rw [show joinNl (l :: ((l2 :: ls') ++ ys)) =
            l ++ '\n' :: joinNl ((l2 :: ls') ++ ys) from rfl]
          rw [ih (by simp), joinNl_cons_cons]
          simp [List.append_assoc]

theorem trimChars_cons_ws (c : Char) (cs : List Char) (h : isWs c = true) :
    trimChars (c :: cs) = trimChars cs := by
  simp [trimChars, List.dropWhile_cons, h]

theorem trimChars_concat_ws (cs : List Char) (c : Char) (h : isWs c = true) :
    trimChars (cs ++ [c]) = trimChars cs := by
  induction cs with
  | nil => simp [trimChars, List.dropWhile_cons, h]
  | cons a as ih =>
      by_cases ha : isWs a = true
      · rw [List.cons_append, trimChars_cons_ws a _ ha, ih,
          trimChars_cons_ws a as ha]
      · have ha' : isWs a = false := by
          cases hv : isWs a with
          | true => exact absurd hv ha
          | false => rfl
        simp only [trimChars, List.cons_append, List.dropWhile_cons, ha',
          Bool.false_eq_true, if_false, List.reverse_cons, List.reverse_append]
        simp [List.dropWhile_cons, List.dropWhile_append, h]

theorem contentTypeGet_fields_nodup (ct : String) (schema : ContentSchema)
    (h : contentTypeGet ct = some schema) :
    (schema.fields.map Prod.fst).Nodup := by
  unfold contentTypeGet at h
  split_ifs at h <;> (injection h with h2) <;> (rw [← h2]; decide)

/-- In the emitted pair list, lookup of a schema field name returns
exactly the serialized value of that field (schema field names are
pairwise distinct). -/
theorem fmGet_emitPairsL (fields : List (String × FieldDef)) (fm : FM)
    (hnd : (fields.map Prod.fst).Nodup) (fname : String) (fdef : FieldDef)
    (hmem : (fname, fdef) ∈ fields) (v : Val)
    (hv : assocGet fm fname = some v) (hnn : ¬(v = .null)) :
    assocGet (emitPairsL fields fm) fname = some (emittedVal fdef v) := by
  induction fields with
  | nil => cases hmem
  | cons fd r ih =>
      simp only [List.map_cons, List.nodup_cons] at hnd
      rcases List.mem_cons.mp hmem with heq | hmem2
      · cases heq
        unfold emitPairsL
        simp only [List.filterMap_cons]
        rw [hv]
        have hb : (v == Val.null) = false := by
          cases hbv : (v == Val.null) with
          | true => exact absurd (eq_of_beq hbv) hnn
          | false => rfl
        simp [hb, assocGet]
      · have hne : ¬(fd.1 = fname) := by
          intro hh
          apply hnd.1
          rw [hh]
          exact List.mem_map.mpr ⟨(fname, fdef), hmem2, rfl⟩
        unfold emitPairsL
        simp only [List.filterMap_cons]
        cases hw : assocGet fm fd.1 with
        | none => exact ih hnd.2 hmem2
        | some w =>
            by_cases hwn : (w == Val.null) = true
            · simp only [hwn, if_true]
              exact ih hnd.2 hmem2
            · have hwn' : (w == Val.null) = false := by
                cases hv2 : (w == Val.null) with
                | true => exact absurd hv2 hwn
                | false => rfl
              simp only [hwn', Bool.false_eq_true, if_false]
              simp only [assocGet, hne, if_false]
              exact ih hnd.2 hmem2

/-- The YAML-safety predicate of the amended round-trip claim: the
emitted field block is non-empty, contains no frontmatter marker, is
stable under the strip applied to the sliced block, and re-parses to
exactly the emitted pairs (so every serialized scalar re-reads as
itself: no marker or newline inside values, no plain scalar resembling
a number, boolean or null, no stray quotes or backslashes in quoted
strings or list items). -/
def yamlBlockSafe (schema : ContentSchema) (fm : FM) : Bool :=
  let ps := emitPairs schema fm
  let lcs := joinNl (ps.map (fun p => fieldLineChars p.1 p.2))
  !ps.isEmpty &&
    (hasSub yamlDashes (('\n' :: lcs) ++ ['\n', '-', '-']) == false) &&
    (trimChars (('\n' :: lcs) ++ ['\n']) == lcs) &&
    (parseYamlMappingChars lcs == some ps)

theorem dashes_self_append (xs : List Char) :
    yamlDashes.isPrefixOf (yamlDashes ++ xs) = true := by
  simp [yamlDashes, List.isPrefixOf]

/-- Parsing the assembled stream: marker line, field block L, marker
line, blank line, tail.  When L holds no marker, survives the strip and
parses as the mapping ps, the parse returns ps and the stripped tail. -/
theorem parse_block (L T2 : List Char) (ps : FM)
    (hnod3 : hasSub yamlDashes (('\n' :: L) ++ ['\n', '-', '-']) = false)
    (htrim : trimChars (('\n' :: L) ++ ['\n']) = L)
    (hmap : parseYamlMappingChars L = some ps) :
    parseFrontmatterCore
        (yamlDashes ++ '\n' :: (L ++ '\n' :: (yamlDashes ++ '\n' :: T2))) =
      (some ps, trimChars ('\n' :: T2)) := by
  unfold parseFrontmatterCore
  rw [dashes_self_append]
  simp only [if_true]
  have hdrop3 : ∀ z : List Char, (yamlDashes ++ z).drop 3 = z := fun z => rfl
  rw [hdrop3]
  have hshape : '\n' :: (L ++ '\n' :: (yamlDashes ++ '\n' :: T2)) =
      (('\n' :: L) ++ ['\n']) ++ (yamlDashes ++ ('\n' :: T2)) := by
    simp
  rw [hshape]
  have hfind := findSub_marker (('\n' :: L) ++ ['\n']) ('\n' :: T2)
    (by
      have he : (('\n' :: L) ++ ['\n']) ++ ['-', '-'] =
          ('\n' :: L) ++ ['\n', '-', '-'] := by simp
      rw [he]
      exact hnod3)
  have hdropb : ((('\n' :: L) ++ ['\n']) ++ (yamlDashes ++ ('\n' :: T2))).drop
      ((('\n' :: L) ++ ['\n']).length + 3) = '\n' :: T2 := by
    rw [show (('\n' :: L) ++ ['\n']) ++ (yamlDashes ++ ('\n' :: T2)) =
      ((('\n' :: L) ++ ['\n']) ++ yamlDashes) ++ ('\n' :: T2) by simp]
    exact List.drop_left' (by simp [yamlDashes])
  simp only [hfind, List.take_left, htrim, hmap, hdropb]

/-- The character stream generate_markdown joins, decomposed around the
two marker lines. -/
theorem joinNl_generateLines (schema : ContentSchema) (fm' : FM) (body : String)
    (hlines : (emitPairs schema fm').map (fun p => fieldLineChars p.1 p.2) ≠ []) :
    joinNl (generateLines schema fm' body) =
      yamlDashes ++ '\n' ::
        (joinNl ((emitPairs schema fm').map (fun p => fieldLineChars p.1 p.2)) ++
          '\n' :: (yamlDashes ++ '\n' :: joinNl ([] ::
            (if body == "" then []
             else [body.data] ++
               (if body.data.getLast? == some '\n' then [] else [[]]))))) := by
  unfold generateLines
  have e1 : [yamlDashes] ++
      (emitPairs schema fm').map (fun p => fieldLineChars p.1 p.2) ++
      [yamlDashes, []] ++
      (if body == "" then []
       else [body.data] ++
         (if body.data.getLast? == some '\n' then [] else [[]])) =
      [yamlDashes] ++
        ((emitPairs schema fm').map (fun p => fieldLineChars p.1 p.2) ++
          ([yamlDashes, []] ++
            (if body == "" then []
             else [body.data] ++
               (if body.data.getLast? == some '\n' then [] else [[]])))) := by
    simp [List.append_assoc]
  rw [e1]
  rw [joinNl_append [yamlDashes] _ (by simp) (by
    intro hnil
    rw [List.append_eq_nil] at hnil
    exact absurd hnil.2 (by simp))]
  rw [joinNl_append _ _ hlines (by simp)]
  rw [show ([yamlDashes, []] ++
      (if body == "" then []
       else [body.data] ++
         (if body.data.getLast? == some '\n' then [] else [[]]))) =
      yamlDashes :: [] ::
        (if body == "" then []
         else [body.data] ++
           (if body.data.getLast? == some '\n' then [] else [[]])) from rfl]
  rw [joinNl_cons_cons]
  rfl

/-- The stripped tail after the closing marker equals the stripped body. -/
theorem trim_bodyTail (body : String) :
    trimChars ('\n' :: joinNl ([] ::
        (if body == "" then []
         else [body.data] ++
           (if body.data.getLast? == some '\n' then [] else [[]])))) =
      trimChars body.data := by
  by_cases hb : (body == "") = true
  · have hbe : body = "" := eq_of_beq hb
    subst hbe
    rfl
  · have hb' : (body == "") = false := by
      cases hv : (body == "") with
      | true => exact absurd hv hb
      | false => rfl
    rw [hb']
    simp only [Bool.false_eq_true, if_false]
    by_cases hnl : (body.data.getLast? == some '\n') = true
    · rw [hnl]
      simp only [if_true]
      rw [show joinNl ([] :: ([body.data] ++ [])) = '\n' :: body.data from rfl]
      rw [trimChars_cons_ws '\n' _ rfl, trimChars_cons_ws '\n' _ rfl]
    · have hnl' : (body.data.getLast? == some '\n') = false := by
        cases hv : (body.data.getLast? == some '\n') with
        | true => exact absurd hv hnl
        | false => rfl
      rw [hnl']
      simp only [Bool.false_eq_true, if_false]
      rw [show joinNl ([] :: ([body.data] ++ [[]])) =
        '\n' :: (body.data ++ ['\n']) from rfl]
      rw [trimChars_cons_ws '\n' _ rfl, trimChars_cons_ws '\n' _ rfl]
      exact trimChars_concat_ws body.data '\n' rfl

/-- Parsing back the generated character stream recovers the emitted
pairs and the stripped body. -/
theorem parse_generateLines (schema : ContentSchema) (fm' : FM) (body : String)
    (hsafe : yamlBlockSafe schema fm' = true) :
    parseFrontmatterCore (joinNl (generateLines schema fm' body)) =
      (some (emitPairs schema fm'), trimChars body.data) := by
  unfold yamlBlockSafe at hsafe
  simp only [Bool.and_eq_true, beq_iff_eq] at hsafe
  obtain ⟨⟨⟨hne, hnod3⟩, htrim⟩, hmap⟩ := hsafe
  have hlines : (emitPairs schema fm').map (fun p => fieldLineChars p.1 p.2)
      ≠ [] := by
    intro hnil
    rw [List.map_eq_nil_iff] at hnil
    rw [hnil] at hne
    simp at hne
  rw [joinNl_generateLines schema fm' body hlines]
  rw [parse_block _ _ _ hnod3 htrim hmap]
  rw [trim_bodyTail]

def c10BadFM : FM :=
  [("title", .str "a --- b"), ("slug", .str "x"), ("category", .str "Research"),
   ("author", .str "A"), ("pubDate", .str "2024-01-02"), ("summary", .str "S")]

/-- C10 counterexample: a title containing the marker makes the claim
fail as stated.  generate_markdown succeeds (the title is quoted), but
_parse_frontmatter slices the raw text at the first marker occurrence
after index 3 (which falls inside the quoted title), the truncated block
fails to parse, and no frontmatter mapping is returned at all, although
the schema field slug has a non-None value the claim requires to agree. -/
theorem c10_roundtrip_fails_on_marker :
    (generate_markdown "article" c10BadFM "Hello").2 = [] ∧
      ((generate_markdown "article" c10BadFM "Hello").1.map
        (fun md => (parse_frontmatter md).1)) = some none := by
  constructor
  · rfl
  · rfl

/-- C10 amended: restricted to payloads whose serialized field block is
YAML-safe (yamlBlockSafe: at least one emitted field, no marker
occurrence inside the block, stability under the strip applied to the
sliced block, and every serialized line re-parsing to exactly its field
and value - which excludes values with embedded markers or newlines,
plain scalars that read back as numbers, booleans, null or trimmed
strings, and quoted scalars or list items with stray quotes or
backslashes), the round trip holds: parsing the generated markdown
yields the body stripped of surrounding whitespace and a mapping that on
every schema field of the content type with a non-None value in
apply_defaults equals that value, date and datetime fields compared in
their serialized (format_date) form. -/
theorem c10_roundtrip_amended (ct : String) (schema : ContentSchema)
    (fm : FM) (body : String) (md : String)
    (hct : contentTypeGet ct = some schema)
    (hgen : generate_markdown ct fm body = (some md, []))
    (hsafe : yamlBlockSafe schema (apply_defaults ct fm) = true) :
    (parse_frontmatter md).2 = (⟨trimChars body.data⟩ : String) ∧
      ∃ g, (parse_frontmatter md).1 = some g ∧
        ∀ fname fdef v, (fname, fdef) ∈ schema.fields →
          fmGet (apply_defaults ct fm) fname = some v → v ≠ .null →
          fmGet g fname = some (emittedVal fdef v) := by
  have hmd : md =
      (⟨joinNl (generateLines schema (apply_defaults ct fm) body)⟩ : String) := by
    unfold generate_markdown at hgen
    rw [hct] at hgen
    by_cases hv : (validate_frontmatter ct (apply_defaults ct fm)).1 = true
    · simp only [hv, Bool.not_true, Bool.false_eq_true, if_false,
        Prod.mk.injEq] at hgen
      exact (Option.some.inj hgen.1).symm
    · have hv' : (validate_frontmatter ct (apply_defaults ct fm)).1 = false := by
        cases hb : (validate_frontmatter ct (apply_defaults ct fm)).1 with
        | true => exact absurd hb hv
        | false => rfl
      simp only [hv', Bool.not_false, if_true, Prod.mk.injEq] at hgen
      exact absurd hgen.1 (by simp)
  have hparse : parseFrontmatterCore md.data =
      (some (emitPairs schema (apply_defaults ct fm)), trimChars body.data) := by
    rw [hmd]
    exact parse_generateLines schema (apply_defaults ct fm) body hsafe
  refine ⟨?_, emitPairs schema (apply_defaults ct fm), ?_, ?_⟩
  · unfold parse_frontmatter
    rw [hparse]
  · unfold parse_frontmatter
    rw [hparse]
  · intro fname fdef v hmem hv hnn
    exact fmGet_emitPairsL schema.fields (apply_defaults ct fm)
      (contentTypeGet_fields_nodup ct schema hct) fname fdef hmem v hv hnn

def c10md : String := (generate_markdown "article" articleFM "Hello body").1.getD ""

/-- Witness for the amended C10 at a concrete article payload. -/
theorem c10_roundtrip_amended_witness :
    contentTypeGet "article" = some articleSchema ∧
      generate_markdown "article" articleFM "Hello body" = (some c10md, []) ∧
      yamlBlockSafe articleSchema (apply_defaults "article" articleFM) = true ∧
      (parse_frontmatter c10md).2 = (⟨trimChars "Hello body".data⟩ : String) ∧
      ∃ g, (parse_frontmatter c10md).1 = some g ∧
        fmGet g "title" = some (.str "My Title") := by
  have h := c10_roundtrip_amended "article" articleSchema articleFM "Hello body"
    c10md rfl rfl (by decide)
  refine ⟨rfl, rfl, by decide, h.1, ?_⟩
  obtain ⟨g, hg, hall⟩ := h.2
  exact ⟨g, hg, hall "title" { ftype := .string } (.str "My Title") (by decide)
    (by decide) (by decide)⟩

end MMT
